import Mathlib

/-!
# go-redis: a shallow embedding of the RESP codec, the key-value store and the two servers

The definitions below follow the Go sources

* `app/resp/resp.go`      (ParseRequestString, parseArray, parseBulkString, CreateArray, ...)
* `app/storage/keyvalue.go` (KeyValue, SetVariable, GetVariable, DeleteVariable)
* `app/server/constants.go`, `app/server/server.go`, `app/server/master.go`,
  `app/server/replica.go`

A Go `string` is a sequence of bytes.  It is modelled as a `List Char`, one `Char` per byte, so
that `len` is `List.length` and slicing is `List.take` / `List.drop`.  A run-time panic (index or
slice out of range) is an explicit outcome of the model.
-/

namespace GoRedis

/-! ## Go strings and the library functions the sources call -/

/-- A Go string: a sequence of bytes, one `Char` per byte. -/
abbrev GoString := List Char

/-- The two-byte line terminator of the wire protocol. -/
def CRLF : GoString := ['\r', '\n']

/-- Errors that the modelled functions return as a Go `error` value. -/
inductive GoError where
  /-- the `*strconv.NumError` of `strconv.Atoi` (syntax or range) -/
  | numError
  /-- the `*storage.StorageError` with its message -/
  | storage (s : GoString)
  /-- an error returned by `net.Conn.Write` or `net.Conn.Read` -/
  | network
  /-- the `errors.New("timeout")` of `responseLoop` -/
  | timeout
  /-- an error of `rdb.DecodeRDBFile` (file missing or not hexadecimal) -/
  | rdbFile
  /-- the `errors.New("connection is nil")` of the handshake functions -/
  | nilConn
  deriving DecidableEq, Repr

/-- The three ways a call of a Go function with result type `(T, error)` can end. -/
inductive Outcome (α : Type) where
  /-- normal return with a nil error -/
  | ret (v : α)
  /-- normal return with a non-nil error (and the zero value of `T`) -/
  | fail (e : GoError)
  /-- run-time panic -/
  | crash
  deriving DecidableEq, Repr

/-- `strings.HasPrefix(s, p)`. -/
def HasPrefix (s p : GoString) : Bool := p.isPrefixOf s

/-- Puts a byte in front of the first part of a split result. -/
def consHead (c : Char) : List GoString → List GoString
  | [] => [[c]]
  | p :: ps => (c :: p) :: ps

/-- The scan behind `strings.Split(s, sep)` for a non-empty `sep`: `skip` counts the bytes of a
separator that was just matched and is still to be stepped over.  At every other position the
leftmost occurrence of `sep` is looked for, exactly as `strings.Index` finds it. -/
def splitFrom (sep : GoString) : Nat → GoString → List GoString
  | _, [] => [[]]
  | skip + 1, _ :: rest => splitFrom sep skip rest
  | 0, c :: rest =>
    if sep.isPrefixOf (c :: rest) then [] :: splitFrom sep (sep.length - 1) rest
    else consHead c (splitFrom sep 0 rest)

/-- `strings.Split(s, sep)` for a non-empty separator. -/
def Split (s sep : GoString) : List GoString := splitFrom sep 0 s

/-- The decimal digit for a number below ten. -/
def digitChar (d : Nat) : Char := Char.ofNat (48 + d)

/-- Decimal digits of `n`, most significant first, in front of `acc`; `fuel` bounds the number
of digits produced. -/
def digitsFuel : Nat → Nat → GoString → GoString
  | 0, _, acc => acc
  | fuel + 1, n, acc =>
    if n < 10 then digitChar n :: acc
    else digitsFuel fuel (n / 10) (digitChar (n % 10) :: acc)

/-- Decimal representation of a natural number (`strconv.FormatUint(n, 10)`). -/
def natToDecimal (n : Nat) : GoString := digitsFuel (n + 1) n []

/-- `strconv.Itoa(i)`. -/
def Itoa (i : Int) : GoString :=
  if i < 0 then '-' :: natToDecimal i.natAbs else natToDecimal i.natAbs

/-- The value of a decimal digit byte, if it is one (`ch -= '0'; ch > 9` is the error test). -/
def digitVal (c : Char) : Option Nat :=
  if 48 ≤ c.toNat ∧ c.toNat ≤ 57 then some (c.toNat - 48) else none

/-- Left-to-right accumulation `n = n*10 + digit` over a digit string; `none` on a non-digit. -/
def parseDigits : Nat → GoString → Option Nat
  | acc, [] => some acc
  | acc, c :: rest =>
    match digitVal c with
    | none => none
    | some d => parseDigits (acc * 10 + d) rest

/-- Largest value of the 64-bit Go `int`. -/
def maxInt : Int := 2 ^ 63 - 1

/-- `strconv.Atoi(s)` on a 64-bit platform: an optional sign, then at least one decimal digit,
nothing else; a value outside the `int` range is an error. -/
def Atoi (s : GoString) : Except GoError Int :=
  match s with
  | [] => .error .numError
  | c :: rest =>
    let neg := c == '-'
    let body := if c == '-' ∨ c == '+' then rest else s
    if body.isEmpty then .error .numError
    else
      match parseDigits 0 body with
      | none => .error .numError
      | some v =>
        if neg then (if (v : Int) > maxInt + 1 then .error .numError else .ok (-(v : Int)))
        else (if (v : Int) > maxInt then .error .numError else .ok (v : Int))

/-- `strings.ToLower(s)` on the ASCII letters: `A`..`Z` are mapped to `a`..`z`, every other byte
is kept. -/
def ToLower (s : GoString) : GoString :=
  s.map fun c => if 65 ≤ c.toNat ∧ c.toNat ≤ 90 then Char.ofNat (c.toNat + 32) else c

/-! ## `app/resp/resp.go` -/

/-- The loop of `parseArray` (and of `parseBulkString`, whose body is the same) over the
remaining `parts`, with `result` the tokens appended so far.  `parts[i+1][:length]` panics when
`length` is negative or exceeds the length of the next part. -/
def parseLoop : List GoString → List GoString → Outcome (List GoString)
  | [], result => .ret result
  | p :: rest, result =>
    if HasPrefix p ['$'] then
      match Atoi (p.drop 1) with
      | .error e => .fail e
      | .ok length =>
        match rest with
        | [] => .ret result
        | q :: rest2 =>
          if length < 0 ∨ (q.length : Int) < length then .crash
          else parseLoop rest2 (result ++ [q.take length.toNat])
    else parseLoop rest result

/-- `parseArray(input)`. -/
def parseArray (input : GoString) : Outcome (List GoString) :=
  parseLoop (Split input CRLF) []

/-- `parseBulkString(input)`. -/
def parseBulkString (input : GoString) : Outcome (List GoString) :=
  parseLoop (Split input CRLF) []

/-- `ParseRequestString(received)`: `received[0]` panics on the empty string. -/
def ParseRequestString : GoString → Outcome (List GoString)
  | [] => .crash
  | typ :: rest =>
    if typ = '*' then parseArray rest
    else if typ = '$' then parseBulkString (typ :: rest)
    else if typ = '"' then ParseRequestString rest
    else .ret (Split (typ :: rest) [' '])

/-- `CreateBulkString(input)`. -/
def CreateBulkString (input : GoString) : GoString :=
  ['$'] ++ Itoa input.length ++ CRLF ++ input ++ CRLF

/-- `CreateBulkStringFromArray(input)`. -/
def CreateBulkStringFromArray (input : List GoString) : GoString :=
  input.foldl (fun res s => res ++ (['$'] ++ Itoa s.length ++ CRLF ++ s ++ CRLF)) []

/-- `CreateArray(input)`. -/
def CreateArray (input : List GoString) : GoString :=
  input.foldl (fun result v => result ++ (['$'] ++ Itoa v.length ++ CRLF ++ v ++ CRLF))
    (['*'] ++ Itoa input.length ++ CRLF)

/-! ## `app/storage/keyvalue.go` -/

/-- A Go `map[string]string`: an association list with at most one entry per key. -/
abbrev GoMap := List (GoString × GoString)

/-- The assignment `m[k] = v`. -/
def mapSet (m : GoMap) (k v : GoString) : GoMap := (k, v) :: m.filter (fun e => e.1 != k)

/-- The builtin `delete(m, k)`. -/
def mapDelete (m : GoMap) (k : GoString) : GoMap := m.filter (fun e => e.1 != k)

/-- The store: the `data` map of the Go struct, together with the goroutines that `SetVariable`
has started and that are still waiting on their timer, each with the key it will delete and the
instant (in nanoseconds of the runtime clock) at which its timer fires. -/
structure KeyValue where
  data : GoMap
  timers : List (GoString × Int)
  deriving DecidableEq, Repr

/-- `NewKeyValue()`. -/
def NewKeyValue : KeyValue := { data := [], timers := [] }

/-- Two's-complement wrap-around of a 64-bit signed integer. -/
def wrapInt64 (x : Int) : Int := (x + 2 ^ 63) % 2 ^ 64 - 2 ^ 63

/-- `time.Duration(int64(t)) * time.Millisecond`, in nanoseconds. -/
def millis (t : Int) : Int := wrapInt64 (t * 1000000)

/-- The instant at which `time.NewTimer(d)` fires when created at instant `now` (the runtime's
`when(d)`): at once for `d <= 0`, and saturating on overflow. -/
def timerWhen (now d : Int) : Int :=
  if d ≤ 0 then now
  else if wrapInt64 (now + d) < 0 then maxInt else wrapInt64 (now + d)

/-- `(*KeyValue).DeleteVariable(key)`. -/
def DeleteVariable (s : KeyValue) (key : GoString) : KeyValue :=
  { s with data := mapDelete s.data key }

/-- `(*KeyValue).SetVariable(k, v, args)` called at instant `now`: the new store and the returned
error.  With a `px` argument that `Atoi` rejects the function returns before the assignment. -/
def SetVariable (s : KeyValue) (k v : GoString) (args : GoMap) (now : Int) :
    KeyValue × Option GoError :=
  match args.lookup "px".toList with
  | some px =>
    match Atoi px with
    | .error e => (s, some e)
    | .ok t =>
      ({ data := mapSet s.data k v, timers := s.timers ++ [(k, timerWhen now (millis t))] }, none)
  | none => ({ s with data := mapSet s.data k v }, none)

/-- `(*KeyValue).GetVariable(key)`. -/
def GetVariable (s : KeyValue) (key : GoString) : Except GoError GoString :=
  match s.data.lookup key with
  | none => .error (.storage "key not found".toList)
  | some v => .ok v

/-- The store at instant `t`: every waiting goroutine whose timer has fired by `t` has run
`s.DeleteVariable(k)`; the others keep waiting. -/
def runTimers (s : KeyValue) (t : Int) : KeyValue :=
  { data := (s.timers.filter (fun e => e.2 ≤ t)).foldl (fun m e => mapDelete m e.1) s.data
    timers := s.timers.filter (fun e => ¬ e.2 ≤ t) }

/-! ## `app/server/constants.go` and `app/server/server.go` -/

/-- The constant `StatusOK`. -/
def StatusOK : GoString := "$2\r\nOK\r\n".toList

/-- The constant `PingCommand`. -/
def PingCommand : GoString := "*1\r\n$4\r\nping\r\n".toList

/-- The constant `PongCommand`. -/
def PongCommand : GoString := "+PONG\r\n".toList

/-- The constant `nullBulkString`. -/
def nullBulkString : GoString := "$-1\r\n".toList

/-- The struct `Replica` of the configuration. -/
structure Replica where
  MasterHost : GoString
  MasterPort : GoString
  deriving DecidableEq, Repr

/-- The struct `Config` (without the logger). -/
structure Config where
  port : Int
  kv : KeyValue
  replica : Replica
  deriving DecidableEq, Repr

/-- The struct `Client`: the connection is named by a number; the read buffer is left out. -/
structure Client where
  conn : Nat
  deriving DecidableEq, Repr

/-- `NewClient(conn)`. -/
def NewClient (conn : Nat) : Client := { conn := conn }

/-- `NewConfig(port, logger, kv, replica)`. -/
def NewConfig (port : Int) (kv : KeyValue) (replica : Replica) : Config :=
  { port := port, kv := kv, replica := replica }

/-! ## The environment of one request

The handlers talk to the network, read a file and start timers.  What the outside world
answers is an explicit input of the model, and what the handler sends is an explicit output. -/

/-- What one call of `conn.Read` inside `responseLoop` meets. -/
inductive ReadEvent where
  /-- the context is already done when the loop tests it -/
  | ctxDone
  /-- `Read` returns an error -/
  | readErr
  /-- `Read` returns these bytes (at most as many as the buffer holds are taken) -/
  | data (chunk : GoString)
  deriving DecidableEq, Repr

/-- The outside world during one request: the instant of the runtime clock, whether the
`n`-th call of `conn.Write` (counted from 0 within the request) succeeds, what the reads of
`responseLoop` meet in order, and what `rdb.DecodeRDBFile()` returns. -/
structure Env where
  now : Int
  writeOk : Nat → Bool
  reads : List ReadEvent
  rdb : Except GoError GoString

/-- One call of `conn.Write`: the connection, the bytes, and whether the call succeeded. -/
structure Written where
  conn : Nat
  data : GoString
  ok : Bool
  deriving DecidableEq, Repr

/-- How a handler ends. -/
inductive Ending where
  /-- it returns, with its `error` result (`none` for nil or for a handler without result) -/
  | returned (err : Option GoError)
  /-- it panics -/
  | crashed
  /-- it waits for ever in a `Read` that nothing answers -/
  | blocked
  deriving DecidableEq, Repr

/-- How `responseLoop` ends. -/
inductive LoopEnd where
  | matched
  | err (e : GoError)
  | blocked
  deriving DecidableEq, Repr

/-- `responseLoop(ctx, conn, response, expectedResponse)`: every round first tests the context,
then reads into the front of `response` and compares the whole buffer with the expected bytes. -/
def responseLoop : List ReadEvent → GoString → GoString → LoopEnd
  | [], _, _ => .blocked
  | .ctxDone :: _, _, _ => .err .timeout
  | .readErr :: _, _, _ => .err .network
  | .data chunk :: rest, response, expectedResponse =>
    let n := min chunk.length response.length
    let filled := chunk.take n ++ response.drop n
    if filled = expectedResponse then .matched
    else responseLoop rest filled expectedResponse

/-- `make([]byte, n)`: `n` zero bytes. -/
def makeBytes (n : Nat) : GoString := List.replicate n (Char.ofNat 0)

/-- The hexadecimal digit of a number below sixteen, lower case. -/
def hexChar (d : Nat) : Char := if d < 10 then Char.ofNat (48 + d) else Char.ofNat (87 + d)

/-- How `encoding/json` writes one byte of a string.  Printable ASCII is kept, except that the
double quote and the backslash get a backslash in front and `<`, `>`, `&` are written as
`\u00XX`; line feed, carriage return and tab are written `\n`, `\r`, `\t` (backspace and form
feed `\b`, `\f`, as Go 1.22 and later do); the other control bytes are written `\u00XX`.  Bytes
from 0x80 on are kept, as for well-formed UTF-8 text. -/
def jsonEscapeByte (c : Char) : GoString :=
  if c = '"' ∨ c = '\\' then ['\\', c]
  else if c = '\n' then ['\\', 'n']
  else if c = '\r' then ['\\', 'r']
  else if c = '\t' then ['\\', 't']
  else if c.toNat = 8 then ['\\', 'b']
  else if c.toNat = 12 then ['\\', 'f']
  else if c.toNat < 32 ∨ c = '<' ∨ c = '>' ∨ c = '&' then
    ['\\', 'u', '0', '0', hexChar (c.toNat / 16), hexChar (c.toNat % 16)]
  else [c]

/-- `json.Marshal(s)` for a string `s`: the escaped bytes between two double quotes.  It
returns no error. -/
def jsonMarshalString (s : GoString) : GoString :=
  ['"'] ++ (s.map jsonEscapeByte).flatten ++ ['"']

/-! ## `app/server/master.go` -/

/-- `generateMasterID()`. -/
def generateMasterID : GoString := "8371b4fb1155b71f4a04d3e1bc3e18c4a990aeeb".toList

/-- The struct `MasterServer` (without the logger).  `Replicas` is the Go map
`map[*Client]bool`: every key is the address of a fresh copy of a `Client`, so no two entries
share a key, and the order of the list is the order in which `range` visits the map. -/
structure MasterServer where
  Port : Int
  MasterReplid : GoString
  MasterReplOffset : GoString
  Replicas : List (Client × Bool)
  KeyValue : KeyValue
  deriving DecidableEq, Repr

/-- `NewMasterServer(cfg)`. -/
def NewMasterServer (cfg : Config) : MasterServer :=
  { Port := cfg.port
    MasterReplid := generateMasterID
    MasterReplOffset := "0".toList
    Replicas := []
    KeyValue := cfg.kv }

/-- What a handler leaves behind: the server, the calls of `conn.Write` in order, the
connections it closed, and how it ended. -/
structure Result where
  ms : MasterServer
  out : List Written
  closed : List Nat
  ending : Ending
  deriving DecidableEq, Repr

/-- `(MasterServer).Role()`. -/
def MasterServer.Role (_ms : MasterServer) : GoString := "master".toList

/-- `(MasterServer).Ping(ctx, cl)`. -/
def MasterServer.Ping (ms : MasterServer) (cl : Client) (env : Env) : Result :=
  let ok := env.writeOk 0
  { ms := ms, out := [⟨cl.conn, PongCommand, ok⟩], closed := []
    ending := .returned (if ok then none else some .network) }

/-- The `px` part of `(MasterServer).Set`: the `args` map built from the input, or `none` when
`input[4]` is out of range. -/
def setArgs (input : List GoString) : Option GoMap :=
  if input.length > 3 then
    if input[3]? = some "px".toList then
      match input[4]? with
      | none => none
      | some px => some [("px".toList, px)]
    else some []
  else some []

/-- `(MasterServer).Set(ctx, input, cl)`.  With a non-empty `Replicas` the loop visits the
entries in order; at the first one whose value is true it sends the task to that replica,
waits in `responseLoop` on the connection of the client, and returns.  Only with an empty
`Replicas` is the store written. -/
def MasterServer.Set (ms : MasterServer) (input : List GoString) (cl : Client) (env : Env) :
    Result :=
  if ms.Replicas.length > 0 then
    match ms.Replicas.find? (fun e => e.2) with
    | some (k, _) =>
      -- sendTaskToReplica(input, k.conn)
      let bytes := jsonMarshalString (CreateArray input)
      let ok := env.writeOk 0
      let out := [Written.mk k.conn bytes ok]
      if !ok then { ms := ms, out := out, closed := [], ending := .returned (some .network) }
      else
        match responseLoop env.reads (makeBytes StatusOK.length) StatusOK with
        | .matched => { ms := ms, out := out, closed := [], ending := .returned none }
        | .err e => { ms := ms, out := out, closed := [], ending := .returned (some e) }
        | .blocked => { ms := ms, out := out, closed := [], ending := .blocked }
    | none =>
      let ok := env.writeOk 0
      { ms := ms, out := [⟨cl.conn, StatusOK, ok⟩], closed := []
        ending := .returned (if ok then none else some .network) }
  else
    match input[1]?, input[2]? with
    | some key, some value =>
      match setArgs input with
      | none => { ms := ms, out := [], closed := [], ending := .crashed }
      | some args =>
        let kv := (SetVariable ms.KeyValue key value args env.now).1
        let ok := env.writeOk 0
        { ms := { ms with KeyValue := kv }, out := [⟨cl.conn, StatusOK, ok⟩], closed := []
          ending := .returned (if ok then none else some .network) }
    | _, _ => { ms := ms, out := [], closed := [], ending := .crashed }

/-- `(MasterServer).Get(ctx, key, cl)`. -/
def MasterServer.Get (ms : MasterServer) (key : GoString) (cl : Client) (env : Env) : Result :=
  match GetVariable ms.KeyValue key with
  | .error _ =>
    { ms := ms, out := [⟨cl.conn, nullBulkString, env.writeOk 0⟩], closed := []
      ending := .returned none }
  | .ok v =>
    { ms := ms, out := [⟨cl.conn, CreateBulkStringFromArray [v], env.writeOk 0⟩], closed := []
      ending := .returned none }

/-- `(MasterServer).Info(ctx, args, cl)`: `args[0]` panics on an empty `args`. -/
def MasterServer.Info (ms : MasterServer) (args : List GoString) (cl : Client) (env : Env) :
    Result :=
  match args with
  | [] => { ms := ms, out := [], closed := [], ending := .crashed }
  | cmd :: _ =>
    if cmd = "replication".toList then
      let role := "role:".toList ++ ms.Role
      let id := "master_replid:".toList ++ ms.MasterReplid
      let offset := "master_repl_offset:".toList ++ ms.MasterReplOffset
      let b := CreateBulkString (role ++ CRLF ++ id ++ CRLF ++ offset ++ CRLF)
      { ms := ms, out := [⟨cl.conn, b, env.writeOk 0⟩], closed := [], ending := .returned none }
    else { ms := ms, out := [], closed := [], ending := .returned none }

/-- `(MasterServer).Echo(ctx, input, cl)`. -/
def MasterServer.Echo (ms : MasterServer) (input : List GoString) (cl : Client) (env : Env) :
    Result :=
  let ok := env.writeOk 0
  { ms := ms, out := [⟨cl.conn, CreateBulkStringFromArray input, ok⟩], closed := []
    ending := .returned (if ok then none else some .network) }

/-- `(MasterServer).HandleReplconfCommand(ctx, args, cl)`. -/
def MasterServer.HandleReplconfCommand (ms : MasterServer) (_args : List GoString) (cl : Client)
    (env : Env) : Result :=
  { ms := ms, out := [⟨cl.conn, "+OK\r\n".toList, env.writeOk 0⟩], closed := []
    ending := .returned none }

/-- `(MasterServer).HandlePsyncCommand(ctx, args, cl)` with `SendRDBFile` inlined: the
`FULLRESYNC` line is written (an error is only logged), then the snapshot is fetched and
written; when either of these two fails the connection is closed and the client is not
registered, otherwise `ms.Replicas[&cl] = true`. -/
def MasterServer.HandlePsyncCommand (ms : MasterServer) (_args : List GoString) (cl : Client)
    (env : Env) : Result :=
  let response := "+FULLRESYNC ".toList ++ ms.MasterReplid ++ " 0\r\n".toList
  let first := Written.mk cl.conn response (env.writeOk 0)
  match env.rdb with
  | .error _ => { ms := ms, out := [first], closed := [cl.conn], ending := .returned none }
  | .ok emptyRDBFile =>
    let blob := ['$'] ++ Itoa emptyRDBFile.length ++ CRLF ++ emptyRDBFile
    let ok := env.writeOk 1
    let out := [first, Written.mk cl.conn blob ok]
    if !ok then { ms := ms, out := out, closed := [cl.conn], ending := .returned none }
    else
      { ms := { ms with Replicas := ms.Replicas ++ [(cl, true)] }, out := out, closed := []
        ending := .returned none }

/-- The command switch of `(MasterServer).handleConnection` on the parsed request:
`parsedString[0]` panics on an empty slice, `parsedString[1]` on one without a second token. -/
def MasterServer.dispatch (ms : MasterServer) (parsedString : List GoString) (cl : Client)
    (env : Env) : Result :=
  match parsedString with
  | [] => { ms := ms, out := [], closed := [], ending := .crashed }
  | first :: args =>
    let command := ToLower first
    if command = "set".toList then ms.Set parsedString cl env
    else if command = "get".toList then
      match args with
      | [] => { ms := ms, out := [], closed := [], ending := .crashed }
      | key :: _ => ms.Get key cl env
    else if command = "echo".toList then ms.Echo args cl env
    else if command = "info".toList then ms.Info args cl env
    else if command = "replconf".toList then ms.HandleReplconfCommand args cl env
    else if command = "psync".toList then ms.HandlePsyncCommand args cl env
    else ms.Ping cl env

/-- One round of the loop of `(MasterServer).handleConnection` on the bytes just read: requests
of at most two bytes are skipped; an error of the parser is only logged, and the nil slice it
comes with makes `parsedString[0]` panic. -/
def MasterServer.handleConnection (ms : MasterServer) (receivedData : GoString) (cl : Client)
    (env : Env) : Result :=
  if receivedData.length > 2 then
    match ParseRequestString receivedData with
    | .ret parsedString => ms.dispatch parsedString cl env
    | .fail _ => ms.dispatch [] cl env
    | .crash => { ms := ms, out := [], closed := [], ending := .crashed }
  else { ms := ms, out := [], closed := [], ending := .returned none }

/-- The bytes of the successful and failed writes on connection `c`, in order. -/
def writtenTo (out : List Written) (c : Nat) : List GoString :=
  (out.filter (fun w => w.conn == c)).map (fun w => w.data)

/-- Whether a byte is a hexadecimal digit. -/
def isHexDigit (c : Char) : Bool := "0123456789abcdefABCDEF".toList.contains c

/-- The bytes on which the model of `json.Marshal` is exact for every Go release: ASCII other
than backspace and form feed. -/
def jsonPlain (c : Char) : Bool := c.toNat < 128 && c.toNat != 8 && c.toNat != 12

/-! ## `app/server/replica.go` -/

/-- The struct `SlaveServer` (without the logger). -/
structure SlaveServer where
  Port : Int
  MasterHost : GoString
  MasterPort : GoString
  MasterID : GoString
  KeyValue : KeyValue
  deriving DecidableEq, Repr

/-- `NewSlaveServer(cfg)`: `MasterID` is not set and has the zero value, the empty string. -/
def NewSlaveServer (cfg : Config) : SlaveServer :=
  { Port := cfg.port
    MasterPort := cfg.replica.MasterPort
    MasterHost := cfg.replica.MasterHost
    MasterID := []
    KeyValue := cfg.kv }

/-- What a handler of the replica leaves behind: the server, the calls of `conn.Write` in
order, the connections it closed, and how it ended. -/
structure SlaveResult where
  s : SlaveServer
  out : List Written
  closed : List Nat
  ending : Ending
  deriving DecidableEq, Repr

/-- `(SlaveServer).Role()`. -/
def SlaveServer.Role (_s : SlaveServer) : GoString := "slave".toList

/-- `(SlaveServer).Ping(ctx, cl)`: the body is `return true, nil`; nothing is written. -/
def SlaveServer.Ping (s : SlaveServer) (_cl : Client) (_env : Env) : SlaveResult :=
  { s := s, out := [], closed := [], ending := .returned none }

/-- `(SlaveServer).Echo(ctx, input, cl)`. -/
def SlaveServer.Echo (s : SlaveServer) (input : List GoString) (cl : Client) (env : Env) :
    SlaveResult :=
  let ok := env.writeOk 0
  { s := s, out := [⟨cl.conn, CreateBulkStringFromArray input, ok⟩], closed := []
    ending := .returned (if ok then none else some .network) }

/-- The `px` part of `(SlaveServer).Set`, whose input starts at the key: the `args` map, or
`none` when `input[3]` is out of range (it never is, the test being `len(input) > 3`). -/
def slaveSetArgs (input : List GoString) : Option GoMap :=
  if input.length > 3 then
    if input[2]? = some "px".toList then
      match input[3]? with
      | none => none
      | some px => some [("px".toList, px)]
    else some []
  else some []

/-- `(SlaveServer).Set(ctx, input, cl)`: the store is written, then `StatusOK` is written to
the connection, and once more when the first write succeeded. -/
def SlaveServer.Set (s : SlaveServer) (input : List GoString) (cl : Client) (env : Env) :
    SlaveResult :=
  match input[0]?, input[1]? with
  | some key, some value =>
    match slaveSetArgs input with
    | none => { s := s, out := [], closed := [], ending := .crashed }
    | some args =>
      let kv := (SetVariable s.KeyValue key value args env.now).1
      let ok := env.writeOk 0
      if !ok then
        { s := { s with KeyValue := kv }, out := [⟨cl.conn, StatusOK, ok⟩], closed := []
          ending := .returned (some .network) }
      else
        { s := { s with KeyValue := kv }
          out := [⟨cl.conn, StatusOK, ok⟩, ⟨cl.conn, StatusOK, env.writeOk 1⟩], closed := []
          ending := .returned none }
  | _, _ => { s := s, out := [], closed := [], ending := .crashed }

/-- `(SlaveServer).Get(ctx, key, cl)`: the body is empty. -/
def SlaveServer.Get (s : SlaveServer) (_key : GoString) (_cl : Client) (_env : Env) :
    SlaveResult :=
  { s := s, out := [], closed := [], ending := .returned none }

/-- `(SlaveServer).Info(ctx, args, cl)`: `args[0]` panics on an empty `args`. -/
def SlaveServer.Info (s : SlaveServer) (args : List GoString) (cl : Client) (env : Env) :
    SlaveResult :=
  match args with
  | [] => { s := s, out := [], closed := [], ending := .crashed }
  | cmd :: _ =>
    if cmd = "replication".toList then
      let role := "role:".toList ++ s.Role
      let b := CreateBulkString role
      { s := s, out := [⟨cl.conn, b, env.writeOk 0⟩], closed := [], ending := .returned none }
    else { s := s, out := [], closed := [], ending := .returned none }

/-- The command switch of `(SlaveServer).handleConnections` on the parsed request: the cases
are `echo` and `info`, everything else goes to `s.Ping`. -/
def SlaveServer.dispatch (s : SlaveServer) (parsedString : List GoString) (cl : Client)
    (env : Env) : SlaveResult :=
  match parsedString with
  | [] => { s := s, out := [], closed := [], ending := .crashed }
  | first :: args =>
    let command := ToLower first
    if command = "echo".toList then s.Echo args cl env
    else if command = "info".toList then s.Info args cl env
    else s.Ping cl env

/-- One round of the loop of `(SlaveServer).handleConnections` on the bytes just read. -/
def SlaveServer.handleConnections (s : SlaveServer) (receivedData : GoString) (cl : Client)
    (env : Env) : SlaveResult :=
  if receivedData.length > 2 then
    match ParseRequestString receivedData with
    | .ret parsedString => s.dispatch parsedString cl env
    | .fail _ => s.dispatch [] cl env
    | .crash => { s := s, out := [], closed := [], ending := .crashed }
  else { s := s, out := [], closed := [], ending := .returned none }

/-! ### The handshake of the replica

The connection to the master is described by what the successive calls of `conn.Read` meet
(`reads`) and by whether the `n`-th call of `conn.Write` of the handshake succeeds. -/

/-- `(SlaveServer).responseLoop(ctx, conn, response, expectedResponse)`, with the reads that
are left when it returns. -/
def SlaveServer.responseLoop : List ReadEvent → GoString → GoString → LoopEnd × List ReadEvent
  | [], _, _ => (.blocked, [])
  | .ctxDone :: rest, _, _ => (.err .timeout, rest)
  | .readErr :: rest, _, _ => (.err .network, rest)
  | .data chunk :: rest, response, expectedResponse =>
    let n := min chunk.length response.length
    let filled := chunk.take n ++ response.drop n
    if filled = expectedResponse then (.matched, rest)
    else SlaveServer.responseLoop rest filled expectedResponse

/-- What one step of the handshake leaves behind: the calls of `conn.Write`, the reads that
are left, and how the step ended. -/
structure StepResult where
  out : List Written
  rest : List ReadEvent
  ending : Ending
  deriving DecidableEq, Repr

/-- `(SlaveServer).PingMasterServer(ctx, conn)`, its write being the `w`-th of the handshake:
the result of `responseLoop` is dropped. -/
def SlaveServer.PingMasterServer (_s : SlaveServer) (conn : Option Nat) (writeOk : Nat → Bool)
    (w : Nat) (reads : List ReadEvent) : StepResult :=
  match conn with
  | none => { out := [], rest := reads, ending := .returned (some .nilConn) }
  | some c =>
    let out := [Written.mk c PingCommand (writeOk w)]
    if !writeOk w then { out := out, rest := reads, ending := .returned (some .network) }
    else
      match SlaveServer.responseLoop reads (makeBytes 7) "+PONG\r\n".toList with
      | (.blocked, rest) => { out := out, rest := rest, ending := .blocked }
      | (_, rest) => { out := out, rest := rest, ending := .returned none }

/-- The first command of `ReplconfMasterServer`. -/
def replconfPort : GoString :=
  "*3\r\n$8\r\nREPLCONF\r\n$14\r\nlistening-port\r\n$4\r\n6380\r\n".toList

/-- The second command of `ReplconfMasterServer`. -/
def replconfCapa : GoString := "*3\r\n$8\r\nREPLCONF\r\n$4\r\ncapa\r\n$6\r\npsync2\r\n".toList

/-- `(SlaveServer).ReplconfMasterServer(ctx, conn)`, its writes being the `w`-th and the next
of the handshake. -/
def SlaveServer.ReplconfMasterServer (_s : SlaveServer) (conn : Option Nat)
    (writeOk : Nat → Bool) (w : Nat) (reads : List ReadEvent) : StepResult :=
  match conn with
  | none => { out := [], rest := reads, ending := .returned (some .nilConn) }
  | some c =>
    let out1 := [Written.mk c replconfPort (writeOk w)]
    if !writeOk w then { out := out1, rest := reads, ending := .returned (some .network) }
    else
      match SlaveServer.responseLoop reads (makeBytes 5) "+OK\r\n".toList with
      | (.blocked, rest) => { out := out1, rest := rest, ending := .blocked }
      | (.err e, rest) => { out := out1, rest := rest, ending := .returned (some e) }
      | (.matched, rest) =>
        let out2 := out1 ++ [Written.mk c replconfCapa (writeOk (w + 1))]
        if !writeOk (w + 1) then
          { out := out2, rest := rest, ending := .returned (some .network) }
        else
          match SlaveServer.responseLoop rest (makeBytes 5) "+OK\r\n".toList with
          | (.blocked, rest2) => { out := out2, rest := rest2, ending := .blocked }
          | (.err e, rest2) => { out := out2, rest := rest2, ending := .returned (some e) }
          | (.matched, rest2) => { out := out2, rest := rest2, ending := .returned none }

/-- How the read loop of `PsyncMasterServer` ends. -/
inductive PsyncEnd where
  /-- the loop reached `break` with these bytes in `response` -/
  | done (response : GoString)
  | err (e : GoError)
  | blocked
  deriving DecidableEq, Repr

/-- The test that ends the read loop of `PsyncMasterServer`: at least `len("+FULLRESYNC ")`
bytes have been read and the last `len(" 0\r\n")` of them are ` 0\r\n`. -/
def psyncStop (response : GoString) : Bool :=
  decide (response.length ≥ 12) && (response.drop (response.length - 4) == " 0\r\n".toList)

/-- The read loop of `PsyncMasterServer`: every round reads into the one-byte `buffer` (a read
of no bytes leaves it as it was) and appends `buffer[0]` to `response`.  The loop does not
test the context. -/
def psyncLoop : List ReadEvent → Char → GoString → PsyncEnd × List ReadEvent
  | [], _, _ => (.blocked, [])
  | .ctxDone :: rest, buffer, response => psyncLoop rest buffer response
  | .readErr :: rest, _, _ => (.err .network, rest)
  | .data chunk :: rest, buffer, response =>
    let filled := chunk.head?.getD buffer
    let grown := response ++ [filled]
    if psyncStop grown then (.done grown, rest)
    else psyncLoop rest filled grown

/-- What `PsyncMasterServer` leaves behind; `localCopy` is the receiver of the call, a copy
of the server of the caller, as it is when the function returns. -/
structure PsyncResult where
  step : StepResult
  localCopy : SlaveServer
  deriving DecidableEq, Repr

/-- The command that `PsyncMasterServer` sends. -/
def psyncCommand : GoString := "*3\r\n$5\r\nPSYNC\r\n$1\r\n?\r\n$2\r\n-1\r\n".toList

/-- `(SlaveServer).PsyncMasterServer(ctx, conn)`, its write being the `w`-th of the handshake.
After the loop `masterID := string(response[startIndex:endIndex])` with `startIndex = 12` and
`endIndex = len(response) - 4` panics when `endIndex < startIndex`; `s.MasterID = masterID`
assigns to the receiver, which is a value. -/
def SlaveServer.PsyncMasterServer (s : SlaveServer) (conn : Option Nat) (writeOk : Nat → Bool)
    (w : Nat) (reads : List ReadEvent) : PsyncResult :=
  match conn with
  | none => { step := { out := [], rest := reads, ending := .returned (some .nilConn) }
              localCopy := s }
  | some c =>
    let out := [Written.mk c psyncCommand (writeOk w)]
    if !writeOk w then
      { step := { out := out, rest := reads, ending := .returned (some .network) }
        localCopy := s }
    else
      match psyncLoop reads (Char.ofNat 0) [] with
      | (.blocked, rest) => { step := { out := out, rest := rest, ending := .blocked }
                              localCopy := s }
      | (.err e, rest) =>
        { step := { out := out, rest := rest, ending := .returned (some e) }, localCopy := s }
      | (.done response, rest) =>
        let startIndex := 12
        let endIndex := response.length - 4
        if endIndex < startIndex then
          { step := { out := out, rest := rest, ending := .crashed }, localCopy := s }
        else
          let masterID := (response.take endIndex).drop startIndex
          { step := { out := out, rest := rest, ending := .returned none }
            localCopy := { s with MasterID := masterID } }

/-- `(SlaveServer).createHandshake(ctx, conn)`: the three steps in order, each ending the
handshake when it does not return nil.  The result is the `error` alone: the receiver of
`PsyncMasterServer` is a copy, which is dropped here (it is kept in `localCopy` only to show
what the callee assigned). -/
def SlaveServer.createHandshake (s : SlaveServer) (conn : Option Nat) (writeOk : Nat → Bool)
    (reads : List ReadEvent) : PsyncResult :=
  let r1 := s.PingMasterServer conn writeOk 0 reads
  if r1.ending ≠ .returned none then { step := r1, localCopy := s }
  else
    let r2 := s.ReplconfMasterServer conn writeOk 1 r1.rest
    if r2.ending ≠ .returned none then
      { step := { r2 with out := r1.out ++ r2.out }, localCopy := s }
    else
      let r3 := s.PsyncMasterServer conn writeOk 3 r2.rest
      { step := { r3.step with out := r1.out ++ r2.out ++ r3.step.out }
        localCopy := r3.localCopy }

/-- The part of `(SlaveServer).Start()` from the handshake on: `Start` has a value receiver
`s` and calls `s.createHandshake(...)`, itself and its callees with value receivers, so the
server that `Start` goes on with (and hands to `handleMasterConnection` and
`handleConnections`) is `s` as it was, whatever the handshake assigned to its copies. -/
def SlaveServer.afterHandshake (s : SlaveServer) (conn : Option Nat) (writeOk : Nat → Bool)
    (reads : List ReadEvent) : SlaveServer × StepResult :=
  (s, (s.createHandshake conn writeOk reads).step)

/-- The reply line of the master to `PSYNC`, for the replication id `id`. -/
def fullresyncLine (id : GoString) : GoString :=
  "+FULLRESYNC ".toList ++ id ++ " 0\r\n".toList

/-- The reads of a one-byte buffer that together deliver the bytes of `bs`. -/
def byteReads (bs : GoString) : List ReadEvent := bs.map (fun c => ReadEvent.data [c])

/-- What the reads of the handshake meet on a master that answers `PING` with `+PONG\r\n`,
each `REPLCONF` with `+OK\r\n` and `PSYNC` with `+FULLRESYNC <id> 0\r\n`: each of the first
three replies is met whole by one read, the reply to `PSYNC` byte by byte (the buffer has one
byte), and `later` is whatever follows that line. -/
def scriptedMaster (id : GoString) (later : List ReadEvent) : List ReadEvent :=
  [.data "+PONG\r\n".toList, .data "+OK\r\n".toList, .data "+OK\r\n".toList]
    ++ byteReads (fullresyncLine id) ++ later

end GoRedis

namespace GoRedis

/-! ## Lemmas on the library functions -/

theorem digitVal_digitChar (d : Nat) (h : d < 10) : digitVal (digitChar d) = some d := by
  interval_cases d <;> rfl

theorem digitChar_ne (d : Nat) (h : d < 10) (c : Char) (hc : digitVal c = none) :
    digitChar d ≠ c := by
  intro e
  rw [← e, digitVal_digitChar d h] at hc
  exact Option.noConfusion hc

theorem parseDigits_digitsFuel (fuel n : Nat) (acc : GoString) (h : n < fuel) :
    parseDigits 0 (digitsFuel fuel n acc) = parseDigits n acc := by
  induction fuel generalizing n acc with
  | zero => omega
  | succ f ih =>
    unfold digitsFuel
    by_cases h10 : n < 10
    · simp [h10, parseDigits, digitVal_digitChar n h10]
    · simp only [h10, if_false]
      rw [ih (n / 10) _ (by omega)]
      simp only [parseDigits, digitVal_digitChar (n % 10) (Nat.mod_lt _ (by decide))]
      congr 1
      omega

theorem parseDigits_natToDecimal (n : Nat) : parseDigits 0 (natToDecimal n) = some n := by
  unfold natToDecimal
  rw [parseDigits_digitsFuel _ _ _ (Nat.lt_succ_self n)]
  rfl

theorem digitsFuel_mem (fuel n : Nat) (acc : GoString) (c : Char)
    (hc : c ∈ digitsFuel fuel n acc) : (∃ d, d < 10 ∧ c = digitChar d) ∨ c ∈ acc := by
  induction fuel generalizing n acc with
  | zero => right; simpa [digitsFuel] using hc
  | succ f ih =>
    unfold digitsFuel at hc
    by_cases h10 : n < 10
    · simp only [h10, if_true, List.mem_cons] at hc
      rcases hc with hc | hc
      · exact Or.inl ⟨n, h10, hc⟩
      · exact Or.inr hc
    · simp only [h10, if_false] at hc
      rcases ih _ _ hc with hd | hm
      · exact Or.inl hd
      · rcases List.mem_cons.mp hm with hm | hm
        · exact Or.inl ⟨n % 10, Nat.mod_lt _ (by decide), hm⟩
        · exact Or.inr hm

theorem natToDecimal_mem (n : Nat) (c : Char) (hc : c ∈ natToDecimal n) :
    ∃ d, d < 10 ∧ c = digitChar d := by
  rcases digitsFuel_mem _ _ _ _ hc with h | h
  · exact h
  · simp at h

theorem digitsFuel_ne_nil (fuel n : Nat) (acc : GoString) (h : 0 < fuel) :
    ∃ c rest, digitsFuel fuel n acc = c :: rest := by
  induction fuel generalizing n acc with
  | zero => omega
  | succ f ih =>
    unfold digitsFuel
    by_cases h10 : n < 10
    · exact ⟨digitChar n, acc, by simp [h10]⟩
    · simp only [h10, if_false]
      cases f with
      | zero => exact ⟨digitChar (n % 10), acc, by simp [digitsFuel]⟩
      | succ g => exact ih _ _ (Nat.succ_pos g)

theorem natToDecimal_cons (n : Nat) :
    ∃ d rest, d < 10 ∧ natToDecimal n = digitChar d :: rest := by
  obtain ⟨c, rest, h⟩ := digitsFuel_ne_nil (n + 1) n [] (Nat.succ_pos n)
  have hc : c ∈ natToDecimal n := by unfold natToDecimal; rw [h]; exact List.mem_cons_self _ _
  obtain ⟨d, hd, rfl⟩ := natToDecimal_mem n c hc
  exact ⟨d, rest, hd, h⟩

theorem Itoa_natCast (n : Nat) : Itoa (n : Int) = natToDecimal n := by
  simp [Itoa]

theorem Atoi_natToDecimal (n : Nat) (h : (n : Int) ≤ maxInt) :
    Atoi (natToDecimal n) = .ok (n : Int) := by
  obtain ⟨d, rest, hd, hcons⟩ := natToDecimal_cons n
  have hp := parseDigits_natToDecimal n
  rw [hcons] at hp ⊢
  have h1 : digitChar d ≠ '-' := digitChar_ne d hd _ (by decide)
  have h2 : digitChar d ≠ '+' := digitChar_ne d hd _ (by decide)
  simp only [Atoi, beq_iff_eq, h1, h2, or_self, if_false, List.isEmpty_cons, hp]
  simp [not_lt.mpr h]

/-! ## Lemmas on `Split` at the separator CR LF -/

theorem Split_nil (sep : GoString) : Split [] sep = [[]] := rfl

theorem Split_crlf_cons (b : GoString) : Split (CRLF ++ b) CRLF = [] :: Split b CRLF := by
  simp [Split, CRLF, splitFrom]

theorem Split_other_cons (c : Char) (s : GoString) (h : ¬ CRLF <+: c :: s) :
    Split (c :: s) CRLF = consHead c (Split s CRLF) := by
  have h2 : CRLF.isPrefixOf (c :: s) = false := by
    cases hb : CRLF.isPrefixOf (c :: s) with
    | false => rfl
    | true => exact absurd (List.isPrefixOf_iff_prefix.mp hb) h
  simp only [Split, splitFrom, h2]
  rfl

theorem Split_append_crlf (a b : GoString) (h : ¬ CRLF <:+: a) :
    Split (a ++ CRLF ++ b) CRLF = a :: Split b CRLF := by
  induction a with
  | nil => simpa using Split_crlf_cons b
  | cons c a ih =>
    have hpre : ¬ CRLF <+: c :: (a ++ CRLF ++ b) := by
      intro hp
      apply h
      cases a with
      | nil =>
        simp only [CRLF, List.nil_append, List.cons_append, List.cons_prefix_cons] at hp
        exact absurd hp.2.1 (by decide)
      | cons d a2 =>
        simp only [CRLF, List.cons_append, List.cons_prefix_cons] at hp
        obtain ⟨h1, h2, -⟩ := hp
        subst h1; subst h2
        exact ⟨[], a2, rfl⟩
    have htail : ¬ CRLF <:+: a := fun hi => h (hi.trans (List.infix_cons (List.infix_refl a)))
    have e : (c :: a) ++ CRLF ++ b = c :: (a ++ CRLF ++ b) := by simp
    rw [e, Split_other_cons c _ hpre, ih htail]
    rfl

theorem no_crlf_of_no_cr (a : GoString) (h : '\r' ∉ a) : ¬ CRLF <:+: a := by
  intro hi
  exact h (hi.subset (by simp [CRLF]))

theorem cr_not_mem_natToDecimal (n : Nat) : '\r' ∉ natToDecimal n := by
  intro hm
  obtain ⟨d, hd, e⟩ := natToDecimal_mem n _ hm
  exact digitChar_ne d hd '\r' (by decide) e.symm

theorem no_crlf_natToDecimal (n : Nat) : ¬ CRLF <:+: natToDecimal n :=
  no_crlf_of_no_cr _ (cr_not_mem_natToDecimal n)

theorem no_crlf_dollar_natToDecimal (n : Nat) : ¬ CRLF <:+: '$' :: natToDecimal n := by
  apply no_crlf_of_no_cr
  intro hm
  rcases List.mem_cons.mp hm with h | h
  · exact absurd h (by decide)
  · exact cr_not_mem_natToDecimal n h

/-! ## Lemmas on the codec -/

/-- One bulk string, as both `CreateArray` and `CreateBulkStringFromArray` append it. -/
theorem foldl_bulk (xs : List GoString) (init : GoString) :
    xs.foldl (fun res s => res ++ (['$'] ++ Itoa s.length ++ CRLF ++ s ++ CRLF)) init
      = init ++ (xs.map CreateBulkString).flatten := by
  induction xs generalizing init with
  | nil => simp
  | cons x xs ih =>
    simp only [List.foldl_cons, ih, List.map_cons, List.flatten_cons, CreateBulkString]
    simp [List.append_assoc]

theorem CreateArray_eq (xs : List GoString) :
    CreateArray xs = ['*'] ++ Itoa xs.length ++ CRLF ++ (xs.map CreateBulkString).flatten := by
  unfold CreateArray
  rw [foldl_bulk]

theorem CreateBulkStringFromArray_eq (xs : List GoString) :
    CreateBulkStringFromArray xs = (xs.map CreateBulkString).flatten := by
  unfold CreateBulkStringFromArray
  rw [foldl_bulk]
  simp

theorem parseLoop_skip (p : GoString) (rest result : List GoString)
    (h : HasPrefix p ['$'] = false) : parseLoop (p :: rest) result = parseLoop rest result := by
  simp [parseLoop, h]

theorem parseLoop_bulk (x : GoString) (rest result : List GoString)
    (hlen : (x.length : Int) ≤ maxInt) :
    parseLoop (('$' :: natToDecimal x.length) :: x :: rest) result
      = parseLoop rest (result ++ [x]) := by
  have hp : HasPrefix ('$' :: natToDecimal x.length) ['$'] = true := by simp [HasPrefix]
  simp [parseLoop, hp, Atoi_natToDecimal x.length hlen]

theorem parseLoop_body (xs result : List GoString)
    (hcrlf : ∀ x ∈ xs, ¬ CRLF <:+: x) (hlen : ∀ x ∈ xs, (x.length : Int) ≤ maxInt) :
    parseLoop (Split (xs.map CreateBulkString).flatten CRLF) result = .ret (result ++ xs) := by
  induction xs generalizing result with
  | nil => simp [Split_nil, parseLoop, HasPrefix]
  | cons x xs ih =>
    have e : ((x :: xs).map CreateBulkString).flatten
        = ('$' :: natToDecimal x.length) ++ CRLF
            ++ (x ++ CRLF ++ (xs.map CreateBulkString).flatten) := by
      simp [CreateBulkString, Itoa_natCast, List.append_assoc]
    rw [e, Split_append_crlf _ _ (no_crlf_dollar_natToDecimal _),
      Split_append_crlf _ _ (hcrlf x (List.mem_cons_self _ _)),
      parseLoop_bulk x _ _ (hlen x (List.mem_cons_self _ _)),
      ih _ (fun y hy => hcrlf y (List.mem_cons_of_mem _ hy))
        (fun y hy => hlen y (List.mem_cons_of_mem _ hy))]
    simp

theorem HasPrefix_natToDecimal (n : Nat) : HasPrefix (natToDecimal n) ['$'] = false := by
  obtain ⟨d, rest, hd, e⟩ := natToDecimal_cons n
  have hne : digitChar d ≠ '$' := digitChar_ne d hd _ (by decide)
  rw [e]
  simp [HasPrefix, List.isPrefixOf, Ne.symm hne]

/-- The decoder undoes the encoder on token lists without CR LF inside a token. -/
theorem parse_createArray (xs : List GoString)
    (hcrlf : ∀ x ∈ xs, ¬ CRLF <:+: x) (hlen : ∀ x ∈ xs, (x.length : Int) ≤ maxInt) :
    ParseRequestString (CreateArray xs) = .ret xs := by
  rw [CreateArray_eq]
  have e : ['*'] ++ Itoa xs.length ++ CRLF ++ (xs.map CreateBulkString).flatten
      = '*' :: (natToDecimal xs.length ++ CRLF ++ (xs.map CreateBulkString).flatten) := by
    simp [Itoa_natCast]
  rw [e]
  simp only [ParseRequestString, if_true, parseArray]
  rw [Split_append_crlf _ _ (no_crlf_natToDecimal _),
    parseLoop_skip _ _ _ (HasPrefix_natToDecimal _), parseLoop_body xs [] hcrlf hlen]
  simp

/-! ## Lemmas on the store -/

theorem lookup_mapSet (m : GoMap) (k v : GoString) : (mapSet m k v).lookup k = some v := by
  simp [mapSet, List.lookup]

theorem lookup_mapDelete_self (m : GoMap) (k : GoString) : (mapDelete m k).lookup k = none := by
  induction m with
  | nil => rfl
  | cons e m ih =>
    unfold mapDelete at ih ⊢
    by_cases h : e.1 = k
    · simp [List.filter_cons, h, ih]
    · have hk : (k == e.1) = false := by simpa using fun e2 => h e2.symm
      simp [List.filter_cons, h, List.lookup, hk, ih]

theorem lookup_mapDelete_none (m : GoMap) (k j : GoString) (h : m.lookup k = none) :
    (mapDelete m j).lookup k = none := by
  induction m with
  | nil => rfl
  | cons e m ih =>
    unfold mapDelete at ih ⊢
    simp only [List.lookup] at h
    cases hk : (k == e.1) with
    | true => rw [hk] at h; exact Option.noConfusion h
    | false =>
      rw [hk] at h
      by_cases hj : e.1 = j
      · simp [List.filter_cons, hj, ih h]
      · simp [List.filter_cons, hj, List.lookup, hk, ih h]

theorem lookup_deleteAll_none (l : List (GoString × Int)) (m : GoMap) (k : GoString)
    (h : m.lookup k = none) :
    (l.foldl (fun m e => mapDelete m e.1) m).lookup k = none := by
  induction l generalizing m with
  | nil => exact h
  | cons e l ih => exact ih _ (lookup_mapDelete_none m k e.1 h)

theorem lookup_deleteAll_mem (l : List (GoString × Int)) (m : GoMap) (k : GoString) (t : Int)
    (h : (k, t) ∈ l) : (l.foldl (fun m e => mapDelete m e.1) m).lookup k = none := by
  induction l generalizing m with
  | nil => simp at h
  | cons e l ih =>
    rcases List.mem_cons.mp h with h | h
    · subst h
      exact lookup_deleteAll_none l _ k (lookup_mapDelete_self m k)
    · exact ih _ h

/-- Once a timer for `k` has fired, the store has no entry for `k`. -/
theorem lookup_runTimers (s : KeyValue) (k : GoString) (d t : Int) (hmem : (k, d) ∈ s.timers)
    (hd : d ≤ t) : (runTimers s t).data.lookup k = none := by
  unfold runTimers
  apply lookup_deleteAll_mem _ _ k d
  exact List.mem_filter.mpr ⟨hmem, by simpa using hd⟩

theorem wrapInt64_id (x : Int) (h0 : -(2 ^ 63) ≤ x) (h1 : x ≤ maxInt) : wrapInt64 x = x := by
  unfold wrapInt64
  unfold maxInt at h1
  rw [Int.emod_eq_of_lt (by omega) (by omega)]
  omega

theorem timerWhen_le (now d : Int) (h0 : 0 ≤ now) (h1 : now ≤ maxInt) (hd0 : 0 ≤ d)
    (hd1 : d ≤ maxInt) : timerWhen now d ≤ now + d := by
  unfold timerWhen
  by_cases hz : d ≤ 0
  · simp only [hz, if_true]; omega
  · simp only [hz, if_false]
    by_cases hov : now + d ≤ maxInt
    · rw [wrapInt64_id _ (by omega) hov]
      have : ¬ (now + d < 0) := by omega
      simp [this]
    · have hw : wrapInt64 (now + d) = now + d - 2 ^ 64 := by
        unfold wrapInt64
        unfold maxInt at hov h1 hd1
        have e : (now + d + 2 ^ 63) % 2 ^ 64 = now + d + 2 ^ 63 - 2 ^ 64 := by
          rw [Int.emod_eq_sub_self_emod, Int.emod_eq_of_lt (by omega) (by omega)]
        rw [e]; omega
      have hneg : wrapInt64 (now + d) < 0 := by
        rw [hw]; unfold maxInt at h1 hd1; omega
      simp only [hneg, if_true]
      omega

theorem dispatch_SET (ms : MasterServer) (args : List GoString) (cl : Client) (env : Env) :
    ms.dispatch ("SET".toList :: args) cl env = ms.Set ("SET".toList :: args) cl env := rfl

theorem dispatch_GET (ms : MasterServer) (key : GoString) (args : List GoString) (cl : Client)
    (env : Env) : ms.dispatch ("GET".toList :: key :: args) cl env = ms.Get key cl env := rfl

theorem dispatch_PSYNC (ms : MasterServer) (args : List GoString) (cl : Client) (env : Env) :
    ms.dispatch ("PSYNC".toList :: args) cl env = ms.HandlePsyncCommand args cl env := rfl

theorem Set_no_replicas (ms : MasterServer) (k v : GoString) (rest : List GoString)
    (cl : Client) (env : Env) (h : ms.Replicas = []) (args : GoMap)
    (ha : setArgs ("SET".toList :: k :: v :: rest) = some args) :
    ms.Set ("SET".toList :: k :: v :: rest) cl env
      = { ms := { ms with KeyValue := (SetVariable ms.KeyValue k v args env.now).1 }
          out := [⟨cl.conn, StatusOK, env.writeOk 0⟩]
          closed := []
          ending := .returned (if env.writeOk 0 then none else some .network) } := by
  unfold MasterServer.Set
  simp only [h, List.length_nil, gt_iff_lt, lt_self_iff_false, if_false, ha,
    List.getElem?_cons_succ, List.getElem?_cons_zero]

theorem Get_missing (ms : MasterServer) (k : GoString) (cl : Client) (env : Env)
    (h : ms.KeyValue.data.lookup k = none) :
    ms.Get k cl env = { ms := ms, out := [⟨cl.conn, nullBulkString, env.writeOk 0⟩], closed := []
                        ending := .returned none } := by
  simp [MasterServer.Get, GetVariable, h]

theorem Get_present (ms : MasterServer) (k v : GoString) (cl : Client) (env : Env)
    (h : ms.KeyValue.data.lookup k = some v) :
    ms.Get k cl env = { ms := ms, out := [⟨cl.conn, CreateBulkString v, env.writeOk 0⟩]
                        closed := [], ending := .returned none } := by
  simp [MasterServer.Get, GetVariable, h, CreateBulkStringFromArray_eq]

/-! ## The claims -/

/-- C1 (the claim as stated fails): the token `a\r\nb` is encoded as `*1\r\n$4\r\na\r\nb\r\n`, which the
decoder cuts at every CR LF, so that `parts[i+1][:4]` is taken of the one-byte part `a` and
panics; the round trip does not hold for every list of strings. -/
theorem C1_crlf_token_breaks_roundtrip :
    CreateArray ["a\r\nb".toList] = "*1\r\n$4\r\na\r\nb\r\n".toList
    ∧ ParseRequestString (CreateArray ["a\r\nb".toList]) = .crash
    ∧ ¬ ∀ xs : List GoString, ParseRequestString (CreateArray xs) = .ret xs := by
  refine ⟨by decide, by decide, fun h => ?_⟩
  have h1 := h ["a\r\nb".toList]
  revert h1
  decide

/-- C1 (amended): for every list of strings none of which contains the two-byte sequence CR LF
(the other meta-characters, a lone CR, a lone LF, `$` and `*`, are allowed), and whose lengths
fit the Go `int`, `ParseRequestString(CreateArray(xs))` returns exactly `xs` and no error. -/
theorem C1_roundtrip_without_crlf (xs : List GoString)
    (hcrlf : ∀ x ∈ xs, ¬ CRLF <:+: x) (hlen : ∀ x ∈ xs, (x.length : Int) ≤ maxInt) :
    ParseRequestString (CreateArray xs) = .ret xs :=
  parse_createArray xs hcrlf hlen

/-- C1 (amended), at the tokens `SET`, `$5`, the empty token, `a\r`, `\n*` and `x y`. -/
theorem C1_roundtrip_without_crlf_witness :
    (∀ x ∈ ["SET".toList, "$5".toList, [], "a\r".toList, "\n*".toList, "x y".toList],
        ¬ CRLF <:+: x)
    ∧ (∀ x ∈ ["SET".toList, "$5".toList, [], "a\r".toList, "\n*".toList, "x y".toList],
        (x.length : Int) ≤ maxInt)
    ∧ ParseRequestString
        (CreateArray ["SET".toList, "$5".toList, [], "a\r".toList, "\n*".toList, "x y".toList])
      = .ret ["SET".toList, "$5".toList, [], "a\r".toList, "\n*".toList, "x y".toList] :=
  ⟨by decide, by decide, C1_roundtrip_without_crlf _ (by decide) (by decide)⟩

/-- C2: on a master without registered replicas, for every key `k`, value `v` and prior store,
handling `SET k v` and next `GET k` makes the reply to the `GET` exactly
`$<len(v)>\r\n<v>\r\n`. -/
theorem C2_set_then_get (ms : MasterServer) (k v : GoString) (cl cl2 : Client) (env env2 : Env)
    (h : ms.Replicas = []) :
    ((ms.dispatch ["SET".toList, k, v] cl env).ms.dispatch ["GET".toList, k] cl2 env2).out
      = [⟨cl2.conn, ['$'] ++ Itoa v.length ++ CRLF ++ v ++ CRLF, env2.writeOk 0⟩] := by
  rw [dispatch_SET, Set_no_replicas ms k v [] cl env h [] rfl, dispatch_GET]
  rw [Get_present _ k v cl2 env2 (by simp [SetVariable, List.lookup, lookup_mapSet])]
  rfl

/-- C2, at `SET foo bar` then `GET foo` on a store that already holds `foo`: the reply is
`$3\r\nbar\r\n`. -/
theorem C2_set_then_get_witness :
    (NewMasterServer (NewConfig 6379 ⟨[("foo".toList, "old".toList)], []⟩ ⟨[], []⟩)).Replicas = []
    ∧ (((NewMasterServer (NewConfig 6379 ⟨[("foo".toList, "old".toList)], []⟩ ⟨[], []⟩)).dispatch
          ["SET".toList, "foo".toList, "bar".toList] ⟨1⟩ ⟨0, fun _ => true, [], .error .rdbFile⟩
        ).ms.dispatch ["GET".toList, "foo".toList] ⟨1⟩ ⟨5, fun _ => true, [], .error .rdbFile⟩).out
      = [⟨1, "$3\r\nbar\r\n".toList, true⟩] :=
  ⟨rfl, C2_set_then_get _ _ _ _ _ _ _ rfl⟩

/-- C3 (evaluation of the code): on a freshly built master, for every key and value, the one
reply written after `SET k v` is the constant `StatusOK`, which is the bulk string
`$2\r\nOK\r\n` and not the simple string `+OK\r\n` that `TestServer_Set` expects. -/
theorem C3_set_reply_is_bulk_string (cfg : Config) (k v : GoString) (cl : Client) (env : Env) :
    ((NewMasterServer cfg).dispatch ["SET".toList, k, v] cl env).out
      = [⟨cl.conn, "$2\r\nOK\r\n".toList, env.writeOk 0⟩]
    ∧ "$2\r\nOK\r\n".toList ≠ "+OK\r\n".toList := by
  refine ⟨?_, by decide⟩
  rw [dispatch_SET, Set_no_replicas _ k v [] cl env rfl [] rfl]
  rfl

/-- C4: for every store and every key the store does not hold, the one reply of the master to
`GET k` is the null bulk string `$-1\r\n`; and `GetVariable` returns the error `key not found`
exactly when the key is absent. -/
theorem C4_get_missing_is_null_bulk (ms : MasterServer) (k : GoString) (cl : Client) (env : Env) :
    (ms.KeyValue.data.lookup k = none →
      (ms.dispatch ["GET".toList, k] cl env).out = [⟨cl.conn, "$-1\r\n".toList, env.writeOk 0⟩])
    ∧ (GetVariable ms.KeyValue k = .error (.storage "key not found".toList)
        ↔ ms.KeyValue.data.lookup k = none) := by
  constructor
  · intro h
    rw [dispatch_GET, Get_missing ms k cl env h]
    rfl
  · unfold GetVariable
    cases ms.KeyValue.data.lookup k <;> simp

/-- C4, at `GET missing` on a store that holds only `foo`. -/
theorem C4_get_missing_is_null_bulk_witness :
    (NewMasterServer (NewConfig 6379 ⟨[("foo".toList, "bar".toList)], []⟩ ⟨[], []⟩)
      ).KeyValue.data.lookup "missing".toList = none
    ∧ ((NewMasterServer (NewConfig 6379 ⟨[("foo".toList, "bar".toList)], []⟩ ⟨[], []⟩)).dispatch
        ["GET".toList, "missing".toList] ⟨1⟩ ⟨0, fun _ => true, [], .error .rdbFile⟩).out
      = [⟨1, "$-1\r\n".toList, true⟩] :=
  ⟨by decide, (C4_get_missing_is_null_bulk _ _ _ _).1 (by decide)⟩

/-- C5 (the claim as stated fails): the request `*1\r\n$3\r\nFOO\r\n`, whose command is none of
the seven names, is answered with `+PONG\r\n`, which does not begin with
`-ERR unknown command`. -/
theorem C5_unknown_command_gets_pong :
    ((NewMasterServer (NewConfig 6379 NewKeyValue ⟨[], []⟩)).handleConnection
        "*1\r\n$3\r\nFOO\r\n".toList ⟨1⟩ ⟨0, fun _ => true, [], .error .rdbFile⟩).out
      = [⟨1, "+PONG\r\n".toList, true⟩]
    ∧ ¬ "-ERR unknown command".toList <+: "+PONG\r\n".toList := by
  constructor
  · decide
  · decide

/-- C5 (amended): for every request whose command name, lower-cased, is none of `set`, `get`,
`echo`, `info`, `replconf` and `psync` (the name `ping` included, which has no case of its own),
the master writes one reply, `+PONG\r\n`, and leaves its state as it was. -/
theorem C5_default_case_is_ping (ms : MasterServer) (first : GoString) (args : List GoString)
    (cl : Client) (env : Env)
    (h : ToLower first ∉ ["set".toList, "get".toList, "echo".toList, "info".toList,
            "replconf".toList, "psync".toList]) :
    (ms.dispatch (first :: args) cl env).out = [⟨cl.conn, "+PONG\r\n".toList, env.writeOk 0⟩]
    ∧ (ms.dispatch (first :: args) cl env).ms = ms := by
  simp only [List.mem_cons, List.mem_singleton, not_or, List.not_mem_nil, or_false] at h
  obtain ⟨h1, h2, h3, h4, h5, h6⟩ := h
  simp only [MasterServer.dispatch, h1, h2, h3, h4, h5, h6, if_false]
  exact ⟨rfl, rfl⟩

/-- C5 (amended), at the commands `FOO` and `PING`. -/
theorem C5_default_case_is_ping_witness :
    ToLower "FOO".toList ∉ ["set".toList, "get".toList, "echo".toList, "info".toList,
            "replconf".toList, "psync".toList]
    ∧ ((NewMasterServer (NewConfig 6379 NewKeyValue ⟨[], []⟩)).dispatch
        ["FOO".toList, "x".toList] ⟨1⟩ ⟨0, fun _ => true, [], .error .rdbFile⟩).out
      = [⟨1, "+PONG\r\n".toList, true⟩] :=
  ⟨by decide, (C5_default_case_is_ping _ _ _ _ _ (by decide)).1⟩

/-- C6 (the claim as stated fails): on a fresh master, `SET foo bar PX 50` with the option in
upper case starts no timer, since the code compares the token with `px` exactly; 100 ms later
`GET foo` is answered with `$3\r\nbar\r\n`, not with `$-1\r\n`. -/
theorem C6_uppercase_PX_is_ignored :
    ((NewMasterServer (NewConfig 6379 NewKeyValue ⟨[], []⟩)).handleConnection
        "*5\r\n$3\r\nSET\r\n$3\r\nfoo\r\n$3\r\nbar\r\n$2\r\nPX\r\n$2\r\n50\r\n".toList ⟨1⟩
        ⟨0, fun _ => true, [], .error .rdbFile⟩).ms.KeyValue
      = ⟨[("foo".toList, "bar".toList)], []⟩
    ∧ (({ NewMasterServer (NewConfig 6379 NewKeyValue ⟨[], []⟩) with
          KeyValue := runTimers ⟨[("foo".toList, "bar".toList)], []⟩ 100000000 }
        ).handleConnection "*2\r\n$3\r\nGET\r\n$3\r\nfoo\r\n".toList ⟨1⟩
        ⟨100000000, fun _ => true, [], .error .rdbFile⟩).out
      = [⟨1, "$3\r\nbar\r\n".toList, true⟩] := by
  constructor
  · decide
  · decide

/-- C6 (amended): on a master without registered replicas, for every key `k`, value `v` and
millisecond count `n` (written in decimal, with `n` ms at most the largest `time.Duration`),
handling `SET k v px n` with the option token written exactly as lower-case `px` passes the
expiry to the store: the store is what `SetVariable(k, v, {px: n})` makes of it, it holds `v`
under `k` and has a timer for `k`; and at every instant `t` at least `n` milliseconds later,
with the timers due by `t` fired and no write in between, `GET k` is answered `$-1\r\n`. -/
theorem C6_lowercase_px_sets_expiry (ms : MasterServer) (k v : GoString) (n : Nat)
    (cl cl2 : Client) (env env2 : Env) (t : Int)
    (h : ms.Replicas = []) (hn : (n : Int) * 1000000 ≤ maxInt)
    (hnow : 0 ≤ env.now ∧ env.now ≤ maxInt) (ht : env.now + (n : Int) * 1000000 ≤ t) :
    (ms.dispatch ["SET".toList, k, v, "px".toList, Itoa n] cl env).ms.KeyValue
      = (SetVariable ms.KeyValue k v [("px".toList, Itoa n)] env.now).1
    ∧ GetVariable (ms.dispatch ["SET".toList, k, v, "px".toList, Itoa n] cl env).ms.KeyValue k
      = .ok v
    ∧ (k, timerWhen env.now ((n : Int) * 1000000))
        ∈ (ms.dispatch ["SET".toList, k, v, "px".toList, Itoa n] cl env).ms.KeyValue.timers
    ∧ ({ (ms.dispatch ["SET".toList, k, v, "px".toList, Itoa n] cl env).ms with
          KeyValue := runTimers
            (ms.dispatch ["SET".toList, k, v, "px".toList, Itoa n] cl env).ms.KeyValue t
        }.dispatch ["GET".toList, k] cl2 env2).out
      = [⟨cl2.conn, "$-1\r\n".toList, env2.writeOk 0⟩] := by
  have hn2 : (n : Int) ≤ maxInt := by unfold maxInt at hn ⊢; omega
  have hmil : millis (n : Int) = (n : Int) * 1000000 := by
    unfold millis
    exact wrapInt64_id _ (by omega) hn
  have hset : SetVariable ms.KeyValue k v [("px".toList, Itoa n)] env.now
      = ({ data := mapSet ms.KeyValue.data k v
           timers := ms.KeyValue.timers ++ [(k, timerWhen env.now ((n : Int) * 1000000))] },
          none) := by
    have hl : List.lookup "px".toList [("px".toList, Itoa (n : Int))] = some (Itoa (n : Int)) := rfl
    unfold SetVariable
    rw [hl]
    simp only [Itoa_natCast, Atoi_natToDecimal n hn2, hmil]
  rw [dispatch_SET,
    Set_no_replicas ms k v ["px".toList, Itoa n] cl env h [("px".toList, Itoa n)] rfl, hset]
  refine ⟨rfl, ?_, ?_, ?_⟩
  · simp [GetVariable, lookup_mapSet]
  · simp
  · rw [dispatch_GET, Get_missing]
    · rfl
    · apply lookup_runTimers _ k (timerWhen env.now ((n : Int) * 1000000)) t
      · simp
      · exact le_trans (timerWhen_le _ _ hnow.1 hnow.2 (by omega) hn) ht

/-- C6 (amended), at `SET foo bar px 50` handled at instant 0 and `GET foo` 100 ms later. -/
theorem C6_lowercase_px_sets_expiry_witness :
    (NewMasterServer (NewConfig 6379 NewKeyValue ⟨[], []⟩)).Replicas = []
    ∧ ((50 : Nat) : Int) * 1000000 ≤ maxInt
    ∧ ({ ((NewMasterServer (NewConfig 6379 NewKeyValue ⟨[], []⟩)).dispatch
            ["SET".toList, "foo".toList, "bar".toList, "px".toList, Itoa (50 : Nat)] ⟨1⟩
            ⟨0, fun _ => true, [], .error .rdbFile⟩).ms with
          KeyValue := runTimers
            ((NewMasterServer (NewConfig 6379 NewKeyValue ⟨[], []⟩)).dispatch
              ["SET".toList, "foo".toList, "bar".toList, "px".toList, Itoa (50 : Nat)] ⟨1⟩
              ⟨0, fun _ => true, [], .error .rdbFile⟩).ms.KeyValue 100000000
        }.dispatch ["GET".toList, "foo".toList] ⟨1⟩
          ⟨100000000, fun _ => true, [], .error .rdbFile⟩).out
      = [⟨1, "$-1\r\n".toList, true⟩] :=
  ⟨rfl, by decide,
    (C6_lowercase_px_sets_expiry (NewMasterServer (NewConfig 6379 NewKeyValue ⟨[], []⟩))
      "foo".toList "bar".toList 50 ⟨1⟩ ⟨1⟩ ⟨0, fun _ => true, [], .error .rdbFile⟩
      ⟨100000000, fun _ => true, [], .error .rdbFile⟩ 100000000 rfl (by decide)
      ⟨by decide, by decide⟩ (by decide)).2.2.2⟩

/-! ### `Set` on a master with registered replicas -/

theorem length_pos_of_find (reps : List (Client × Bool)) (r : Client × Bool)
    (h : reps.find? (fun e => e.2) = some r) : reps.length > 0 := by
  cases reps with
  | nil => simp at h
  | cons a l => simp

/-- With a registered replica, `Set` never changes the server. -/
theorem Set_with_replicas_ms (ms : MasterServer) (input : List GoString) (cl : Client)
    (env : Env) (h : ms.Replicas ≠ []) : (ms.Set input cl env).ms = ms := by
  have hlen : ms.Replicas.length > 0 := List.length_pos.mpr h
  unfold MasterServer.Set
  simp only [hlen, if_true]
  split
  · split
    · rfl
    · split <;> rfl
  · rfl

/-- With a valid replica first in the iteration, the one call of `Write` that `Set` makes goes
to that replica and carries the JSON encoding of the frame. -/
theorem Set_with_replicas_out (ms : MasterServer) (input : List GoString) (cl : Client)
    (env : Env) (r : Client × Bool) (h : ms.Replicas.find? (fun e => e.2) = some r) :
    (ms.Set input cl env).out
      = [⟨r.1.conn, jsonMarshalString (CreateArray input), env.writeOk 0⟩] := by
  have hlen : ms.Replicas.length > 0 := length_pos_of_find _ _ h
  unfold MasterServer.Set
  simp only [hlen, if_true, h]
  split
  · rfl
  · split <;> rfl

theorem Set_with_replicas_write_fails (ms : MasterServer) (input : List GoString) (cl : Client)
    (env : Env) (r : Client × Bool) (h : ms.Replicas.find? (fun e => e.2) = some r)
    (hw : env.writeOk 0 = false) :
    (ms.Set input cl env).ending = .returned (some .network) := by
  have hlen : ms.Replicas.length > 0 := length_pos_of_find _ _ h
  unfold MasterServer.Set
  simp [hlen, h, hw]

/-- C7 (the claim as stated fails): on a master with one registered replica and an empty store,
handling `SET a 1` sends the command to the replica and leaves the store of the master empty:
afterwards `GetVariable("a")` returns `key not found`, not `1`. -/
theorem C7_set_with_replica_skips_store :
    ((({ NewMasterServer (NewConfig 6379 NewKeyValue ⟨[], []⟩) with
          Replicas := [(⟨9⟩, true)] } : MasterServer).handleConnection
        "*3\r\n$3\r\nSET\r\n$1\r\na\r\n$1\r\n1\r\n".toList ⟨1⟩
        ⟨0, fun _ => true, [.data "$2\r\nOK\r\n".toList], .error .rdbFile⟩).out.map
          (fun w => w.conn)) = [9]
    ∧ GetVariable
        (({ NewMasterServer (NewConfig 6379 NewKeyValue ⟨[], []⟩) with
            Replicas := [(⟨9⟩, true)] } : MasterServer).handleConnection
          "*3\r\n$3\r\nSET\r\n$1\r\na\r\n$1\r\n1\r\n".toList ⟨1⟩
          ⟨0, fun _ => true, [.data "$2\r\nOK\r\n".toList], .error .rdbFile⟩).ms.KeyValue
        "a".toList
      = .error (.storage "key not found".toList) := by
  constructor
  · decide
  · rfl

/-- C7 (amended): for a master with at least one registered replica and every `SET` command,
handling it leaves the master as it was, its own store included, so that afterwards
`GetVariable(k)` returns what it returned before; the store of the master is written only when
no replica is registered. -/
theorem C7_set_with_replica_keeps_store (ms : MasterServer) (args : List GoString) (k : GoString)
    (cl : Client) (env : Env) (h : ms.Replicas ≠ []) :
    (ms.dispatch ("SET".toList :: args) cl env).ms = ms
    ∧ GetVariable (ms.dispatch ("SET".toList :: args) cl env).ms.KeyValue k
      = GetVariable ms.KeyValue k := by
  rw [dispatch_SET, Set_with_replicas_ms ms _ cl env h]
  exact ⟨rfl, rfl⟩

/-- C7 (amended), at `SET a 1` on a master with one replica and the store `a = 0`. -/
theorem C7_set_with_replica_keeps_store_witness :
    ({ NewMasterServer (NewConfig 6379 ⟨[("a".toList, "0".toList)], []⟩ ⟨[], []⟩) with
        Replicas := [(⟨9⟩, true)] } : MasterServer).Replicas ≠ []
    ∧ GetVariable
        (({ NewMasterServer (NewConfig 6379 ⟨[("a".toList, "0".toList)], []⟩ ⟨[], []⟩) with
            Replicas := [(⟨9⟩, true)] } : MasterServer).dispatch
          ["SET".toList, "a".toList, "1".toList] ⟨1⟩
          ⟨0, fun _ => true, [], .error .rdbFile⟩).ms.KeyValue "a".toList
      = .ok "0".toList :=
  ⟨by decide,
    (C7_set_with_replica_keeps_store
      ({ NewMasterServer (NewConfig 6379 ⟨[("a".toList, "0".toList)], []⟩ ⟨[], []⟩) with
          Replicas := [(⟨9⟩, true)] } : MasterServer)
      ["a".toList, "1".toList] "a".toList ⟨1⟩ ⟨0, fun _ => true, [], .error .rdbFile⟩
      (by decide)).2⟩

/-- C8 (the claim as stated fails): on a master with the one replica on connection 9, handling
`SET a 1` writes to that connection the JSON string `"*3\r\n$3\r\nSET\r\n$1\r\na\r\n$1\r\n1\r\n"`,
in double quotes and with the line ends spelled out as backslash escapes, which is not the
frame `CreateArray(["SET","a","1"])`. -/
theorem C8_replica_receives_json_string :
    writtenTo
        (({ NewMasterServer (NewConfig 6379 NewKeyValue ⟨[], []⟩) with
            Replicas := [(⟨9⟩, true)] } : MasterServer).handleConnection
          "*3\r\n$3\r\nSET\r\n$1\r\na\r\n$1\r\n1\r\n".toList ⟨1⟩
          ⟨0, fun _ => true, [.data "$2\r\nOK\r\n".toList], .error .rdbFile⟩).out 9
      = ["\"*3\\r\\n$3\\r\\nSET\\r\\n$1\\r\\na\\r\\n$1\\r\\n1\\r\\n\"".toList]
    ∧ "\"*3\\r\\n$3\\r\\nSET\\r\\n$1\\r\\na\\r\\n$1\\r\\n1\\r\\n\"".toList
      ≠ CreateArray ["SET".toList, "a".toList, "1".toList] := by
  constructor
  · decide
  · decide

/-- C8 (amended): for a master with a registered replica and every `SET` command `cmd` of
ASCII tokens, handling `cmd` writes to the connection of the replica that the loop over
`Replicas` reaches first exactly one message, `json.Marshal(CreateArray(cmd))`: the frame
between double quotes with its bytes escaped; this message is never the bare frame. -/
theorem C8_replica_receives_json_of_frame (ms : MasterServer) (args : List GoString)
    (cl : Client) (env : Env) (r : Client × Bool)
    (h : ms.Replicas.find? (fun e => e.2) = some r)
    (_hascii : ∀ tok ∈ "SET".toList :: args, ∀ c ∈ tok, jsonPlain c = true) :
    writtenTo (ms.dispatch ("SET".toList :: args) cl env).out r.1.conn
      = [['"'] ++ ((CreateArray ("SET".toList :: args)).map jsonEscapeByte).flatten ++ ['"']]
    ∧ ['"'] ++ ((CreateArray ("SET".toList :: args)).map jsonEscapeByte).flatten ++ ['"']
      ≠ CreateArray ("SET".toList :: args) := by
  constructor
  · rw [dispatch_SET, Set_with_replicas_out ms _ cl env r h]
    simp [writtenTo, jsonMarshalString]
  · rw [CreateArray_eq]
    intro e
    simp only [List.singleton_append, List.cons_append, List.cons.injEq] at e
    exact absurd e.1 (by decide)

/-- C8 (amended), at `SET a 1` with replicas on connections 9 and 10. -/
theorem C8_replica_receives_json_of_frame_witness :
    ((({ NewMasterServer (NewConfig 6379 NewKeyValue ⟨[], []⟩) with
          Replicas := [(⟨9⟩, true), (⟨10⟩, true)] } : MasterServer).Replicas.find?
        (fun e => e.2)) = some (⟨9⟩, true))
    ∧ (∀ tok ∈ ["SET".toList, "a".toList, "1".toList], ∀ c ∈ tok, jsonPlain c = true)
    ∧ writtenTo
        (({ NewMasterServer (NewConfig 6379 NewKeyValue ⟨[], []⟩) with
            Replicas := [(⟨9⟩, true), (⟨10⟩, true)] } : MasterServer).dispatch
          ["SET".toList, "a".toList, "1".toList] ⟨1⟩
          ⟨0, fun _ => true, [], .error .rdbFile⟩).out 9
      = [['"'] ++ ((CreateArray ["SET".toList, "a".toList, "1".toList]).map
            jsonEscapeByte).flatten ++ ['"']] :=
  ⟨by decide, by decide,
    (C8_replica_receives_json_of_frame
      ({ NewMasterServer (NewConfig 6379 NewKeyValue ⟨[], []⟩) with
          Replicas := [(⟨9⟩, true), (⟨10⟩, true)] } : MasterServer)
      ["a".toList, "1".toList] ⟨1⟩ ⟨0, fun _ => true, [], .error .rdbFile⟩ (⟨9⟩, true)
      (by decide) (by decide)).1⟩

/-- C9 (the claim as stated fails): on a master with the one replica on connection 9 whose
connection rejects the write, handling `SET a 1` from the client on connection 1 returns the
error, writes nothing to the client, and leaves the replica registered as valid. -/
theorem C9_replica_write_failure_fails_set :
    (({ NewMasterServer (NewConfig 6379 NewKeyValue ⟨[], []⟩) with
          Replicas := [(⟨9⟩, true)] } : MasterServer).Set
        ["SET".toList, "a".toList, "1".toList] ⟨1⟩
        ⟨0, fun _ => false, [], .error .rdbFile⟩).ending = .returned (some .network)
    ∧ writtenTo
        (({ NewMasterServer (NewConfig 6379 NewKeyValue ⟨[], []⟩) with
            Replicas := [(⟨9⟩, true)] } : MasterServer).Set
          ["SET".toList, "a".toList, "1".toList] ⟨1⟩
          ⟨0, fun _ => false, [], .error .rdbFile⟩).out 1 = []
    ∧ (({ NewMasterServer (NewConfig 6379 NewKeyValue ⟨[], []⟩) with
          Replicas := [(⟨9⟩, true)] } : MasterServer).Set
        ["SET".toList, "a".toList, "1".toList] ⟨1⟩
        ⟨0, fun _ => false, [], .error .rdbFile⟩).ms.Replicas = [(⟨9⟩, true)] := by
  refine ⟨by decide, by decide, by decide⟩

/-- C9 (amended): whenever the write of a propagated `SET` to the replica's connection fails,
the master's `Set` returns that error, no call of `Write` of the request succeeds (the client
receives no reply), and `Replicas` is left as it was: the failing handle stays registered. -/
theorem C9_replica_write_failure_is_returned (ms : MasterServer) (input : List GoString)
    (cl : Client) (env : Env) (r : Client × Bool)
    (h : ms.Replicas.find? (fun e => e.2) = some r) (hw : env.writeOk 0 = false) :
    (ms.Set input cl env).ending = .returned (some .network)
    ∧ (∀ w ∈ (ms.Set input cl env).out, w.ok = false)
    ∧ (ms.Set input cl env).ms.Replicas = ms.Replicas := by
  refine ⟨Set_with_replicas_write_fails ms input cl env r h hw, ?_, ?_⟩
  · rw [Set_with_replicas_out ms input cl env r h]
    intro w hmem
    rw [List.mem_singleton.mp hmem]
    exact hw
  · rw [Set_with_replicas_ms ms input cl env]
    intro e
    rw [e] at h
    simp at h

/-- C9 (amended), at `SET a 1` with the one replica on connection 9 unreachable. -/
theorem C9_replica_write_failure_is_returned_witness :
    ((({ NewMasterServer (NewConfig 6379 NewKeyValue ⟨[], []⟩) with
          Replicas := [(⟨9⟩, true)] } : MasterServer).Replicas.find?
        (fun e => e.2)) = some (⟨9⟩, true))
    ∧ (({ NewMasterServer (NewConfig 6379 NewKeyValue ⟨[], []⟩) with
          Replicas := [(⟨9⟩, true)] } : MasterServer).Set
        ["SET".toList, "a".toList, "1".toList] ⟨1⟩
        ⟨0, fun _ => false, [], .error .rdbFile⟩).ending = .returned (some .network) :=
  ⟨by decide,
    (C9_replica_write_failure_is_returned
      ({ NewMasterServer (NewConfig 6379 NewKeyValue ⟨[], []⟩) with
          Replicas := [(⟨9⟩, true)] } : MasterServer)
      ["SET".toList, "a".toList, "1".toList] ⟨1⟩ ⟨0, fun _ => false, [], .error .rdbFile⟩
      (⟨9⟩, true) (by decide) rfl).1⟩

/-- C10: for every master built by `NewMasterServer` (whatever replicas it has registered
since) and every snapshot `b` that the snapshot codec returns, handling `PSYNC` makes two
calls of `Write`, both on the client's connection: `+FULLRESYNC <MasterReplid> 0\r\n`, and
`$<len(b)>\r\n` followed by the bytes of `b` and nothing after them; `MasterReplid` has
exactly 40 bytes, all hexadecimal digits; and the client is added to `Replicas`, as valid,
exactly when the write of the snapshot succeeded. -/
theorem C10_psync_reply_and_registration (cfg : Config) (reps : List (Client × Bool))
    (args : List GoString) (b : GoString) (cl : Client) (env : Env)
    (hb : env.rdb = .ok b) :
    (({ NewMasterServer cfg with Replicas := reps } : MasterServer).dispatch
        ("PSYNC".toList :: args) cl env).out
      = [⟨cl.conn, "+FULLRESYNC ".toList ++ (NewMasterServer cfg).MasterReplid ++ " 0\r\n".toList,
            env.writeOk 0⟩,
         ⟨cl.conn, ['$'] ++ Itoa b.length ++ CRLF ++ b, env.writeOk 1⟩]
    ∧ (NewMasterServer cfg).MasterReplid.length = 40
    ∧ (∀ c ∈ (NewMasterServer cfg).MasterReplid, isHexDigit c = true)
    ∧ (({ NewMasterServer cfg with Replicas := reps } : MasterServer).dispatch
        ("PSYNC".toList :: args) cl env).ms.Replicas
      = (if env.writeOk 1 then reps ++ [(cl, true)] else reps) := by
  rw [dispatch_PSYNC]
  unfold MasterServer.HandlePsyncCommand
  simp only [hb]
  have h40 : generateMasterID.length = 40 := by decide
  have hhex : ∀ c ∈ generateMasterID, isHexDigit c = true := by decide
  refine ⟨?_, h40, hhex, ?_⟩
  · cases env.writeOk 1 <;> rfl
  · cases env.writeOk 1 <;> rfl

/-- C10, at `PSYNC ? -1` with the snapshot `REDIS0011`: first a healthy connection, on which
the client is registered. -/
theorem C10_psync_reply_and_registration_witness :
    (Except.ok "REDIS0011".toList : Except GoError GoString) = .ok "REDIS0011".toList
    ∧ ((NewMasterServer (NewConfig 6379 NewKeyValue ⟨[], []⟩)).handleConnection
        "*3\r\n$5\r\nPSYNC\r\n$1\r\n?\r\n$2\r\n-1\r\n".toList ⟨4⟩
        ⟨0, fun _ => true, [], .ok "REDIS0011".toList⟩).out
      = [⟨4, "+FULLRESYNC 8371b4fb1155b71f4a04d3e1bc3e18c4a990aeeb 0\r\n".toList, true⟩,
         ⟨4, "$9\r\nREDIS0011".toList, true⟩]
    ∧ (({ NewMasterServer (NewConfig 6379 NewKeyValue ⟨[], []⟩) with
          Replicas := [] } : MasterServer).dispatch
        ["PSYNC".toList, "?".toList, "-1".toList] ⟨4⟩
        ⟨0, fun _ => true, [], .ok "REDIS0011".toList⟩).ms.Replicas = [(⟨4⟩, true)] :=
  ⟨rfl, by decide,
    (C10_psync_reply_and_registration (NewConfig 6379 NewKeyValue ⟨[], []⟩) []
      ["?".toList, "-1".toList] "REDIS0011".toList ⟨4⟩
      ⟨0, fun _ => true, [], .ok "REDIS0011".toList⟩ rfl).2.2.2⟩

/-! ## Lemmas for the replica and the remaining claims -/

theorem dispatch_INFO (ms : MasterServer) (args : List GoString) (cl : Client) (env : Env) :
    ms.dispatch ("INFO".toList :: args) cl env = ms.Info args cl env := rfl

theorem slave_dispatch_INFO (s : SlaveServer) (args : List GoString) (cl : Client) (env : Env) :
    s.dispatch ("INFO".toList :: args) cl env = s.Info args cl env := rfl

theorem slave_Info_replication (s : SlaveServer) (rest : List GoString) (cl : Client)
    (env : Env) :
    (s.Info ("replication".toList :: rest) cl env).out
      = [⟨cl.conn, "$10\r\nrole:slave\r\n".toList, env.writeOk 0⟩] := by
  have h : CreateBulkString ("role:".toList ++ "slave".toList) = "$10\r\nrole:slave\r\n".toList := by
    decide
  simp only [SlaveServer.Info, SlaveServer.Role, if_true, h]

theorem lookup_mapDelete_other (m : GoMap) (k j : GoString) (h : j ≠ k) :
    (mapDelete m j).lookup k = m.lookup k := by
  induction m with
  | nil => rfl
  | cons e m ih =>
    unfold mapDelete at ih ⊢
    by_cases hj : e.1 = j
    · have hk : (k == e.1) = false := by
        rw [hj]; simpa using fun e2 => h e2.symm
      have hf : (e.1 != j) = false := by simp [hj]
      simp only [List.filter_cons, hf, List.lookup, hk]
      exact ih
    · cases hk : (k == e.1) <;> simp [List.filter_cons, hj, List.lookup, hk, ih]

theorem lookup_deleteAll_other (l : List (GoString × Int)) (m : GoMap) (k : GoString)
    (h : ∀ e ∈ l, e.1 ≠ k) : (l.foldl (fun m e => mapDelete m e.1) m).lookup k = m.lookup k := by
  induction l generalizing m with
  | nil => rfl
  | cons e l ih =>
    simp only [List.foldl_cons]
    rw [ih _ (fun x hx => h x (List.mem_cons_of_mem _ hx)),
      lookup_mapDelete_other m k e.1 (h e (List.mem_cons_self _ _))]

theorem timerWhen_eq (now d : Int) (h0 : 0 ≤ now) (hd : 0 ≤ d) (h : now + d ≤ maxInt) :
    timerWhen now d = now + d := by
  unfold timerWhen
  by_cases hz : d ≤ 0
  · simp only [hz, if_true]; omega
  · simp only [hz, if_false]
    rw [wrapInt64_id _ (by omega) h]
    have : ¬ (now + d < 0) := by omega
    simp [this]

/-- `SetVariable` with a decimal `px` within the range of `time.Duration`. -/
theorem SetVariable_px (s : KeyValue) (k v : GoString) (n : Nat) (now : Int)
    (hn : (n : Int) * 1000000 ≤ maxInt) :
    SetVariable s k v [("px".toList, Itoa n)] now
      = ({ data := mapSet s.data k v
           timers := s.timers ++ [(k, timerWhen now ((n : Int) * 1000000))] }, none) := by
  have hn2 : (n : Int) ≤ maxInt := by unfold maxInt at hn ⊢; omega
  have hmil : millis (n : Int) = (n : Int) * 1000000 := by
    unfold millis
    exact wrapInt64_id _ (by omega) hn
  have hl : List.lookup "px".toList [("px".toList, Itoa (n : Int))] = some (Itoa (n : Int)) := rfl
  unfold SetVariable
  rw [hl]
  simp only [Itoa_natCast, Atoi_natToDecimal n hn2, hmil]

theorem psyncStop_false_of_last (r : GoString) (x : Char) (hx : x ≠ '\n') :
    psyncStop (r ++ [x]) = false := by
  cases hs : psyncStop (r ++ [x]) with
  | false => rfl
  | true =>
    exfalso
    unfold psyncStop at hs
    simp only [Bool.and_eq_true, beq_iff_eq] at hs
    have hsuf : " 0\r\n".toList <:+ r ++ [x] := by
      rw [← hs.2]; exact List.drop_suffix _ _
    obtain ⟨p, hp⟩ := hsuf
    have hl := congrArg List.getLast? hp
    have e : p ++ " 0\r\n".toList = (p ++ [' ', '0', '\r']) ++ ['\n'] := by
      simp
    rw [e, List.getLast?_append, List.getLast?_append] at hl
    simp at hl
    exact hx hl.symm

theorem psyncLoop_bytes (l : GoString) (c : Char) (later : List ReadEvent) (buffer : Char)
    (r : GoString) (h1 : ∀ x ∈ l, x ≠ '\n') (hstop : psyncStop (r ++ l ++ [c]) = true) :
    psyncLoop (byteReads (l ++ [c]) ++ later) buffer r = (.done (r ++ l ++ [c]), later) := by
  induction l generalizing buffer r with
  | nil =>
    simp only [List.append_nil] at hstop
    simp [byteReads, psyncLoop, hstop]
  | cons x l ih =>
    have hx : psyncStop (r ++ [x]) = false :=
      psyncStop_false_of_last r x (h1 x (List.mem_cons_self _ _))
    have e : r ++ [x] ++ l ++ [c] = r ++ (x :: l) ++ [c] := by simp
    have hrec := ih x (r ++ [x]) (fun y hy => h1 y (List.mem_cons_of_mem _ hy)) (e ▸ hstop)
    simp only [byteReads] at hrec ⊢
    simp only [List.cons_append, List.map_cons, psyncLoop, List.head?_cons, Option.getD_some, hx]
    rw [e] at hrec
    simpa using hrec

/-- C11 (the claim as stated fails): on a replica the reply to `INFO replication` is
`$10\r\nrole:slave\r\n`; its body holds the role alone and neither `master_replid:` nor
`master_repl_offset:`. -/
theorem C11_replica_info_has_role_only :
    ((NewSlaveServer (NewConfig 6380 NewKeyValue ⟨"localhost".toList, "6379".toList⟩)
        ).handleConnections "*2\r\n$4\r\nINFO\r\n$11\r\nreplication\r\n".toList ⟨1⟩
        ⟨0, fun _ => true, [], .error .rdbFile⟩).out
      = [⟨1, "$10\r\nrole:slave\r\n".toList, true⟩]
    ∧ ¬ "master_replid:".toList <:+: "$10\r\nrole:slave\r\n".toList
    ∧ ¬ "master_repl_offset:".toList <:+: "$10\r\nrole:slave\r\n".toList := by
  refine ⟨by decide, by decide, by decide⟩

/-- C11 (amended): on a master the reply to `INFO replication` is a single bulk string whose
declared length is the byte length of its body, the body being the three fields
`role:master`, `master_replid:<MasterReplid>` and `master_repl_offset:<MasterReplOffset>`,
each followed by CR LF; on a replica the reply is the single bulk string
`$10\r\nrole:slave\r\n`, whose body is the field `role:slave` alone. -/
theorem C11_info_replication_replies (ms : MasterServer) (s : SlaveServer) (cl : Client)
    (env : Env) :
    (ms.dispatch ["INFO".toList, "replication".toList] cl env).out
      = [⟨cl.conn,
          ['$'] ++ Itoa ("role:master\r\nmaster_replid:".toList ++ ms.MasterReplid
                ++ "\r\nmaster_repl_offset:".toList ++ ms.MasterReplOffset ++ CRLF).length
            ++ CRLF
            ++ ("role:master\r\nmaster_replid:".toList ++ ms.MasterReplid
                ++ "\r\nmaster_repl_offset:".toList ++ ms.MasterReplOffset ++ CRLF)
            ++ CRLF,
          env.writeOk 0⟩]
    ∧ (s.dispatch ["INFO".toList, "replication".toList] cl env).out
      = [⟨cl.conn, "$10\r\nrole:slave\r\n".toList, env.writeOk 0⟩] := by
  constructor
  · rw [dispatch_INFO]
    simp [MasterServer.Info, MasterServer.Role, CreateBulkString, CRLF, List.append_assoc]
  · rw [slave_dispatch_INFO]
    exact slave_Info_replication s [] cl env

/-- C12 (evaluation of the code): a negative length field is accepted by `Atoi`, after which
`parts[i+1][:length]` panics (`*1\r\n$-1\r\nabc\r\n`); when the negative field is the last
part the loop breaks and an empty result is returned with a nil error (`*1\r\n$-1`).  A field
that is not a number is answered with the error of `Atoi` (`*1\r\n$x\r\nabc\r\n`). -/
theorem C12_negative_length_panics :
    ParseRequestString "*1\r\n$-1\r\nabc\r\n".toList = .crash
    ∧ ParseRequestString "*1\r\n$-1".toList = .ret []
    ∧ ParseRequestString "*1\r\n$x\r\nabc\r\n".toList = .fail .numError := by
  refine ⟨by decide, by decide, by decide⟩

/-- C14 (the claim as stated fails): `SetVariable(k, old, px = 10)` at instant 0 and
`SetVariable(k, new, px = 100)` 5 ms later; the timer of the first call fires at 10 ms and
deletes the key, so that at 50 ms, before the 100 ms of the second call have elapsed,
`GetVariable(k)` returns `key not found`. -/
theorem C14_stale_timer_deletes_new_value :
    GetVariable
        (runTimers
          (SetVariable
            (SetVariable NewKeyValue "k".toList "old".toList [("px".toList, "10".toList)] 0).1
            "k".toList "new".toList [("px".toList, "100".toList)] 5000000).1
          50000000)
        "k".toList
      = .error (.storage "key not found".toList)
    ∧ (SetVariable
          (SetVariable NewKeyValue "k".toList "old".toList [("px".toList, "10".toList)] 0).1
          "k".toList "new".toList [("px".toList, "100".toList)] 5000000).2 = none := by
  constructor
  · rfl
  · rfl

/-- C14 (amended): for every store in which no timer started by an earlier set of `k` is due
before the new expiry, after `SetVariable(k, v, px = T)` succeeds at instant `now` (with `T`
milliseconds after `now` within the range of the clock) and with no further write to `k`,
`GetVariable(k)` returns `v` at every instant before `T` milliseconds have elapsed and
`key not found` at every instant after they have elapsed. -/
theorem C14_ttl_without_stale_timer (s : KeyValue) (k v : GoString) (T : Nat) (now t : Int)
    (hnow : 0 ≤ now) (hT : now + (T : Int) * 1000000 ≤ maxInt)
    (hold : ∀ e ∈ s.timers, e.1 = k → now + (T : Int) * 1000000 ≤ e.2) :
    (SetVariable s k v [("px".toList, Itoa T)] now).2 = none
    ∧ (t < now + (T : Int) * 1000000 →
        GetVariable (runTimers (SetVariable s k v [("px".toList, Itoa T)] now).1 t) k = .ok v)
    ∧ (now + (T : Int) * 1000000 < t →
        GetVariable (runTimers (SetVariable s k v [("px".toList, Itoa T)] now).1 t) k
          = .error (.storage "key not found".toList)) := by
  have hd : (T : Int) * 1000000 ≤ maxInt := by omega
  rw [SetVariable_px s k v T now hd, timerWhen_eq now _ hnow (by omega) hT]
  refine ⟨rfl, ?_, ?_⟩
  · intro ht
    have hl : (runTimers { data := mapSet s.data k v
                           timers := s.timers ++ [(k, now + (T : Int) * 1000000)] } t
              ).data.lookup k = some v := by
      unfold runTimers
      simp only
      rw [lookup_deleteAll_other _ _ k, lookup_mapSet]
      intro e he hek
      obtain ⟨hmem, hdue⟩ := List.mem_filter.mp he
      have hdue2 : e.2 ≤ t := by simpa using hdue
      rcases List.mem_append.mp hmem with hm | hm
      · have := hold e hm hek
        omega
      · rw [List.mem_singleton.mp hm] at hdue2
        simp only at hdue2
        omega
    simp [GetVariable, hl]
  · intro ht
    have hl := lookup_runTimers
      { data := mapSet s.data k v, timers := s.timers ++ [(k, now + (T : Int) * 1000000)] }
      k (now + (T : Int) * 1000000) t (by simp) (le_of_lt ht)
    simp [GetVariable, hl]

/-- C14 (amended), at `SetVariable(foo, bar, px = 50)` on the empty store at instant 0:
`bar` at 49 ms. -/
theorem C14_ttl_without_stale_timer_witness :
    (0 : Int) ≤ 0 ∧ (0 : Int) + ((50 : Nat) : Int) * 1000000 ≤ maxInt
    ∧ (∀ e ∈ NewKeyValue.timers, e.1 = "foo".toList → (0 : Int) + ((50 : Nat) : Int) * 1000000 ≤ e.2)
    ∧ GetVariable
        (runTimers (SetVariable NewKeyValue "foo".toList "bar".toList
            [("px".toList, Itoa (50 : Nat))] 0).1 49000000) "foo".toList
      = .ok "bar".toList :=
  ⟨by decide, by decide, by decide,
    (C14_ttl_without_stale_timer NewKeyValue "foo".toList "bar".toList 50 0 49000000
      (by decide) (by decide) (by decide)).2.1 (by decide)⟩

/-- C15 (evaluation of the code): on a replica whose store holds `bar` under `foo`, the
requests `GET foo` and `PING` get no reply at all, where the claim requires `$3\r\nbar\r\n`
and a non-empty reply: the switch of `handleConnections` has no case for `get`, and the
`SlaveServer.Ping` it falls to only returns.  A master with the same store answers the same
two requests with `$3\r\nbar\r\n` and `+PONG\r\n`. -/
theorem C15_replica_get_and_ping_unanswered :
    GetVariable
        (NewSlaveServer (NewConfig 6380 ⟨[("foo".toList, "bar".toList)], []⟩
          ⟨"localhost".toList, "6379".toList⟩)).KeyValue "foo".toList
      = .ok "bar".toList
    ∧ ((NewSlaveServer (NewConfig 6380 ⟨[("foo".toList, "bar".toList)], []⟩
          ⟨"localhost".toList, "6379".toList⟩)).handleConnections
        "*2\r\n$3\r\nGET\r\n$3\r\nfoo\r\n".toList ⟨1⟩ ⟨0, fun _ => true, [], .error .rdbFile⟩).out
      = []
    ∧ ((NewSlaveServer (NewConfig 6380 ⟨[("foo".toList, "bar".toList)], []⟩
          ⟨"localhost".toList, "6379".toList⟩)).handleConnections
        "*1\r\n$4\r\nPING\r\n".toList ⟨1⟩ ⟨0, fun _ => true, [], .error .rdbFile⟩).out
      = []
    ∧ ((NewMasterServer (NewConfig 6379 ⟨[("foo".toList, "bar".toList)], []⟩ ⟨[], []⟩)
        ).handleConnection
        "*2\r\n$3\r\nGET\r\n$3\r\nfoo\r\n".toList ⟨1⟩ ⟨0, fun _ => true, [], .error .rdbFile⟩).out
      = [⟨1, "$3\r\nbar\r\n".toList, true⟩]
    ∧ ((NewMasterServer (NewConfig 6379 ⟨[("foo".toList, "bar".toList)], []⟩ ⟨[], []⟩)
        ).handleConnection
        "*1\r\n$4\r\nPING\r\n".toList ⟨1⟩ ⟨0, fun _ => true, [], .error .rdbFile⟩).out
      = [⟨1, "+PONG\r\n".toList, true⟩] := by
  refine ⟨rfl, by decide, by decide, by decide, by decide⟩

/-- C16 (evaluation of the code): on a fresh master each of these requests of more than two
bytes ends in a panic: one that parses to no tokens (`*0\r\n`), `SET a` with one argument,
`SET a 1 px` without the milliseconds, `GET` and `INFO` without argument, and a declared bulk
length of 9 in front of the three bytes `GET`. -/
theorem C16_requests_that_panic :
    ((NewMasterServer (NewConfig 6379 NewKeyValue ⟨[], []⟩)).handleConnection
        "*0\r\n".toList ⟨1⟩ ⟨0, fun _ => true, [], .error .rdbFile⟩).ending = .crashed
    ∧ ((NewMasterServer (NewConfig 6379 NewKeyValue ⟨[], []⟩)).handleConnection
        "*2\r\n$3\r\nSET\r\n$1\r\na\r\n".toList ⟨1⟩
        ⟨0, fun _ => true, [], .error .rdbFile⟩).ending = .crashed
    ∧ ((NewMasterServer (NewConfig 6379 NewKeyValue ⟨[], []⟩)).handleConnection
        "*4\r\n$3\r\nSET\r\n$1\r\na\r\n$1\r\n1\r\n$2\r\npx\r\n".toList ⟨1⟩
        ⟨0, fun _ => true, [], .error .rdbFile⟩).ending = .crashed
    ∧ ((NewMasterServer (NewConfig 6379 NewKeyValue ⟨[], []⟩)).handleConnection
        "*1\r\n$3\r\nGET\r\n".toList ⟨1⟩ ⟨0, fun _ => true, [], .error .rdbFile⟩).ending
      = .crashed
    ∧ ((NewMasterServer (NewConfig 6379 NewKeyValue ⟨[], []⟩)).handleConnection
        "*1\r\n$4\r\nINFO\r\n".toList ⟨1⟩ ⟨0, fun _ => true, [], .error .rdbFile⟩).ending
      = .crashed
    ∧ ((NewMasterServer (NewConfig 6379 NewKeyValue ⟨[], []⟩)).handleConnection
        "*1\r\n$9\r\nGET\r\n".toList ⟨1⟩ ⟨0, fun _ => true, [], .error .rdbFile⟩).ending
      = .crashed := by
  refine ⟨by decide, by decide, by decide, by decide, by decide, by decide⟩

/-- C17: for every list of strings none of which contains the two-byte sequence CR LF (and
whose lengths fit the Go `int`, as the length of every Go string does),
`ParseRequestString(CreateArray(xs))` returns exactly `xs` and no error; and `CreateArray(xs)`
is `*<len(xs)>\r\n` followed by `CreateBulkStringFromArray(xs)`, which is the concatenation of
`CreateBulkString(x)` over the elements in order. -/
theorem C17_roundtrip_and_frame_layout (xs : List GoString)
    (hcrlf : ∀ x ∈ xs, ¬ CRLF <:+: x) (hlen : ∀ x ∈ xs, (x.length : Int) ≤ maxInt) :
    ParseRequestString (CreateArray xs) = .ret xs
    ∧ CreateArray xs = ['*'] ++ Itoa xs.length ++ CRLF ++ CreateBulkStringFromArray xs
    ∧ CreateBulkStringFromArray xs = (xs.map CreateBulkString).flatten := by
  refine ⟨parse_createArray xs hcrlf hlen, ?_, CreateBulkStringFromArray_eq xs⟩
  rw [CreateArray_eq, CreateBulkStringFromArray_eq]

/-- C17, at the elements `$3`, `*`, the empty string, `\r`, `\n` and `\ra\n`. -/
theorem C17_roundtrip_and_frame_layout_witness :
    (∀ x ∈ ["$3".toList, "*".toList, [], "\r".toList, "\n".toList, "\ra\n".toList],
        ¬ CRLF <:+: x)
    ∧ (∀ x ∈ ["$3".toList, "*".toList, [], "\r".toList, "\n".toList, "\ra\n".toList],
        (x.length : Int) ≤ maxInt)
    ∧ ParseRequestString
        (CreateArray ["$3".toList, "*".toList, [], "\r".toList, "\n".toList, "\ra\n".toList])
      = .ret ["$3".toList, "*".toList, [], "\r".toList, "\n".toList, "\ra\n".toList] :=
  ⟨by decide, by decide, (C17_roundtrip_and_frame_layout _ (by decide) (by decide)).1⟩

/-! ### The handshake against a scripted master -/

theorem slave_responseLoop_hit (expected : GoString) (rest : List ReadEvent) :
    SlaveServer.responseLoop (.data expected :: rest) (makeBytes expected.length) expected
      = (.matched, rest) := by
  simp [SlaveServer.responseLoop, makeBytes]

theorem fullresyncLine_split (id : GoString) :
    fullresyncLine id = ("+FULLRESYNC ".toList ++ id ++ " 0\r".toList) ++ ['\n'] := by
  simp [fullresyncLine]

theorem psyncStop_fullresyncLine (id : GoString) : psyncStop (fullresyncLine id) = true := by
  have hlen : (fullresyncLine id).length - 4 = ("+FULLRESYNC ".toList ++ id).length := by
    simp [fullresyncLine]
  have hdrop : (fullresyncLine id).drop ((fullresyncLine id).length - 4) = " 0\r\n".toList := by
    rw [hlen]
    unfold fullresyncLine
    exact List.drop_left _ _
  unfold psyncStop
  rw [hdrop]
  simp [fullresyncLine]

theorem masterID_of_fullresyncLine (id : GoString) :
    ((fullresyncLine id).take ((fullresyncLine id).length - 4)).drop 12 = id := by
  have hlen : (fullresyncLine id).length - 4 = ("+FULLRESYNC ".toList ++ id).length := by
    simp [fullresyncLine]
  rw [hlen]
  unfold fullresyncLine
  rw [List.take_left]
  exact List.drop_left "+FULLRESYNC ".toList id

theorem ne_newline_of_hex (x : Char) (h : isHexDigit x = true) : x ≠ '\n' := by
  intro e
  rw [e] at h
  exact absurd h (by decide)

theorem psyncLoop_fullresyncLine (id : GoString) (later : List ReadEvent)
    (hhex : ∀ x ∈ id, isHexDigit x = true) :
    psyncLoop (byteReads (fullresyncLine id) ++ later) (Char.ofNat 0) []
      = (.done (fullresyncLine id), later) := by
  have h1 : ∀ x ∈ "+FULLRESYNC ".toList ++ id ++ " 0\r".toList, x ≠ '\n' := by
    intro x hx
    rcases List.mem_append.mp hx with hx | hx
    · rcases List.mem_append.mp hx with hx | hx
      · intro e
        rw [e] at hx
        exact absurd hx (by decide)
      · exact ne_newline_of_hex x (hhex x hx)
    · intro e
      rw [e] at hx
      exact absurd hx (by decide)
  have hstop : psyncStop ([] ++ ("+FULLRESYNC ".toList ++ id ++ " 0\r".toList) ++ ['\n']) = true := by
    rw [List.nil_append, ← fullresyncLine_split]
    exact psyncStop_fullresyncLine id
  have h := psyncLoop_bytes _ '\n' later (Char.ofNat 0) [] h1 hstop
  rw [List.nil_append, ← fullresyncLine_split] at h
  exact h

/-- The handshake against a master that gives the documented replies. -/
theorem createHandshake_scripted (s : SlaveServer) (c : Nat) (writeOk : Nat → Bool)
    (id : GoString) (later : List ReadEvent) (hw : ∀ w, writeOk w = true)
    (hhex : ∀ x ∈ id, isHexDigit x = true) :
    s.createHandshake (some c) writeOk
        ([.data "+PONG\r\n".toList, .data "+OK\r\n".toList, .data "+OK\r\n".toList]
          ++ byteReads (fullresyncLine id) ++ later)
      = { step := { out := [⟨c, PingCommand, true⟩, ⟨c, replconfPort, true⟩,
                            ⟨c, replconfCapa, true⟩, ⟨c, psyncCommand, true⟩]
                    rest := later
                    ending := .returned none }
          localCopy := { s with MasterID := id } } := by
  have hpong := slave_responseLoop_hit "+PONG\r\n".toList
  have hok := slave_responseLoop_hit "+OK\r\n".toList
  have e7 : "+PONG\r\n".toList.length = 7 := rfl
  have e5 : "+OK\r\n".toList.length = 5 := rfl
  rw [e7] at hpong
  rw [e5] at hok
  have hlen : 12 ≤ (fullresyncLine id).length - 4 := by
    simp [fullresyncLine]
  unfold SlaveServer.createHandshake SlaveServer.PingMasterServer
    SlaveServer.ReplconfMasterServer SlaveServer.PsyncMasterServer
  simp only [hw, List.cons_append, List.nil_append, hpong, hok, Bool.not_true,
    Bool.false_eq_true, if_false, ne_eq, not_true_eq_false,
    psyncLoop_fullresyncLine id later hhex, List.append_assoc]
  simp [masterID_of_fullresyncLine, Nat.not_lt.mpr hlen]

/-- C13 (evaluation of the code): against a master that gives the documented replies, for
every id of 40 hexadecimal digits, `createHandshake` of a replica built by `NewSlaveServer`
returns no error and its read loop stops exactly at the end of the `FULLRESYNC` line (the
reads left are those after the line); `PsyncMasterServer` assigns the id to the `MasterID` of
its receiver, but the receiver is a copy: the server that `Start` goes on with keeps the empty
`MasterID` it was built with, which is not the id. -/
theorem C13_handshake_loses_master_id (cfg : Config) (c : Nat) (writeOk : Nat → Bool)
    (id : GoString) (later : List ReadEvent) (hw : ∀ w, writeOk w = true)
    (hlen : id.length = 40) (hhex : ∀ x ∈ id, isHexDigit x = true) :
    ((NewSlaveServer cfg).createHandshake (some c) writeOk (scriptedMaster id later)).step.ending
      = .returned none
    ∧ ((NewSlaveServer cfg).createHandshake (some c) writeOk (scriptedMaster id later)).step.rest
      = later
    ∧ ((NewSlaveServer cfg).createHandshake (some c) writeOk
          (scriptedMaster id later)).localCopy.MasterID = id
    ∧ ((NewSlaveServer cfg).afterHandshake (some c) writeOk (scriptedMaster id later)).1.MasterID
      = []
    ∧ ((NewSlaveServer cfg).afterHandshake (some c) writeOk (scriptedMaster id later)).1.MasterID
      ≠ id := by
  unfold scriptedMaster
  rw [createHandshake_scripted (NewSlaveServer cfg) c writeOk id later hw hhex]
  refine ⟨rfl, rfl, rfl, rfl, ?_⟩
  intro e
  have h0 : id.length = 0 := by
    rw [← e]
    rfl
  omega

/-- C13, at the id `8371b4fb1155b71f4a04d3e1bc3e18c4a990aeeb` followed by the first bytes of
the snapshot: the server after the handshake has the empty `MasterID`. -/
theorem C13_handshake_loses_master_id_witness :
    (∀ w, (fun _ : Nat => true) w = true)
    ∧ "8371b4fb1155b71f4a04d3e1bc3e18c4a990aeeb".toList.length = 40
    ∧ (∀ x ∈ "8371b4fb1155b71f4a04d3e1bc3e18c4a990aeeb".toList, isHexDigit x = true)
    ∧ ((NewSlaveServer (NewConfig 6380 NewKeyValue ⟨"localhost".toList, "6379".toList⟩)
        ).afterHandshake (some 3) (fun _ => true)
          (scriptedMaster "8371b4fb1155b71f4a04d3e1bc3e18c4a990aeeb".toList
            (byteReads "$5\r\nREDIS".toList))).1.MasterID = [] :=
  ⟨fun _ => rfl, by decide, by decide,
    (C13_handshake_loses_master_id
      (NewConfig 6380 NewKeyValue ⟨"localhost".toList, "6379".toList⟩) 3 (fun _ => true)
      "8371b4fb1155b71f4a04d3e1bc3e18c4a990aeeb".toList (byteReads "$5\r\nREDIS".toList)
      (fun _ => rfl) (by decide) (by decide)).2.2.2.1⟩

end GoRedis
